import Mathlib

/-!
Verification of the AIO readiness scoring core (`app/core/scorer.py` and
`app/core/extractor.py`) against its natural-language specification.

Modelling conventions:
* Python strings are modelled as `List Char` (sequences of code points);
  `len` is `List.length`, slicing `[:n]` is `List.take n`, and the `in`
  substring operator is the infix test `listContains`.
* BeautifulSoup queries are abstracted into a `Page` record that exposes
  exactly the queries the code performs (tag presence, attribute values,
  tag counts, the parse results of `application/ld+json` blocks, ...).
* Python `round` applied to a float is round-half-to-even on the exact
  value of the float.
* Python float expressions are evaluated exactly.  Every value that the
  scorer's float expressions produce is a dyadic rational `m / 2^k` (type
  `Dy` below), every double is such a dyadic rational, and each arithmetic
  step rounds its exact result to 53 significant bits, ties to even
  (`dyFloat`).  All values occurring in the scorer are normal doubles far
  from overflow and underflow, so this emulation is exact.  The literals
  0.7, 0.3, 0.20, 0.15 denote the doubles `d7`, `d3`, `d20`, `d15`.
* Scores accumulate in ℤ; `json.loads` results are modelled by the `Json`
  inductive, with `none` standing for a block whose parse raised.
* The only statement in the scoring core that can raise for exotic (but
  syntactically valid) input is the `key in schema_type` membership test
  on a non-string `@type`; `_check_structured_data` therefore returns an
  `Except Unit` value, `.error ()` standing for the uncaught `TypeError`.
-/

/-! ## Integer bit length (structural, fuel-based so the kernel can
evaluate it) -/

/-- `bitLenAux fuel n` computes the binary length of `n` provided
`n ≤ fuel`. -/
def bitLenAux : Nat → Nat → Nat
  | 0, _ => 0
  | fuel + 1, n => if n = 0 then 0 else bitLenAux fuel (n / 2) + 1

/-- Binary length of a natural number: the least `b` with `n < 2^b`. -/
def natBitLen (n : Nat) : Nat := bitLenAux n n

theorem bitLenAux_zero : ∀ fuel, bitLenAux fuel 0 = 0 := by
  intro fuel; cases fuel <;> simp [bitLenAux]

theorem bitLenAux_spec :
    ∀ fuel n, 1 ≤ n → n ≤ fuel →
      2 ^ (bitLenAux fuel n - 1) ≤ n ∧ n < 2 ^ bitLenAux fuel n := by
  intro fuel
  induction fuel with
  | zero => intro n h1 h2; omega
  | succ f ih =>
    intro n h1 h2
    rw [bitLenAux]
    have hn0 : ¬ n = 0 := by omega
    simp only [hn0, if_false]
    by_cases hn1 : n = 1
    · subst hn1
      norm_num [bitLenAux_zero]
    · have hhalf1 : 1 ≤ n / 2 := by omega
      have hhalff : n / 2 ≤ f := by omega
      obtain ⟨hlo, hhi⟩ := ih (n / 2) hhalf1 hhalff
      constructor
      · have : 2 ^ (bitLenAux f (n / 2) + 1 - 1) = 2 ^ (bitLenAux f (n / 2)) := by
          norm_num
        rw [this]
        calc 2 ^ bitLenAux f (n / 2) ≤ 2 * (n / 2) := by
              have := Nat.pow_le_pow_right (show 1 ≤ 2 by norm_num)
                (show bitLenAux f (n/2) - 1 + 1 ≥ bitLenAux f (n/2) by omega)
              have h2 : 2 ^ (bitLenAux f (n/2) - 1 + 1) = 2 * 2 ^ (bitLenAux f (n/2) - 1) := by
                rw [pow_succ]; ring
              calc 2 ^ bitLenAux f (n / 2) ≤ 2 ^ (bitLenAux f (n/2) - 1 + 1) := this
                _ = 2 * 2 ^ (bitLenAux f (n/2) - 1) := h2
                _ ≤ 2 * (n / 2) := by omega
          _ ≤ n := by omega
      · have : n < 2 * (n / 2) + 2 := by omega
        calc n < 2 * (n / 2) + 2 := this
          _ ≤ 2 * (2 ^ bitLenAux f (n / 2) - 1) + 2 := by omega
          _ ≤ 2 ^ (bitLenAux f (n / 2) + 1) := by
              rw [pow_succ]
              have : 1 ≤ 2 ^ bitLenAux f (n / 2) := Nat.one_le_two_pow
              omega

theorem natBitLen_spec (n : Nat) (h : 1 ≤ n) :
    2 ^ (natBitLen n - 1) ≤ n ∧ n < 2 ^ natBitLen n :=
  bitLenAux_spec n n h le_rfl

/-! ## Python-style rounding -/

/-- Round `n / d` (with `d > 0`) half to even, purely on integers. -/
def bankerInt (n d : ℤ) : ℤ :=
  if 2 * (n - Int.fdiv n d * d) < d then Int.fdiv n d
  else if d < 2 * (n - Int.fdiv n d * d) then Int.fdiv n d + 1
  else if Int.fdiv n d % 2 = 0 then Int.fdiv n d else Int.fdiv n d + 1

/-- Python `round` on the exact (rational) value: round half to even.
Used for the specification-side readings of `round(...)`. -/
def exactRound (q : ℚ) : ℤ :=
  let f : ℤ := ⌊q⌋
  if q - f < 1/2 then f
  else if (1:ℚ)/2 < q - f then f + 1
  else if f % 2 = 0 then f else f + 1

/-! ## Exact binary64 emulation on dyadic rationals -/

/-- A dyadic rational `m / 2^k`.  All intermediate values of the scorer's
float expressions are of this form. -/
structure Dy where
  m : ℤ
  k : ℤ
deriving Repr, DecidableEq

/-- The exact rational value of a dyadic. -/
def Dy.val (a : Dy) : ℚ := (a.m : ℚ) * 2 ^ (-a.k)

/-- Multiplication of a dyadic by an integer (a Python `int * float` is
exact in the integer factor). -/
def dyMulInt (a : Dy) (n : ℤ) : Dy := ⟨a.m * n, a.k⟩

/-- Exact sum of two dyadics. -/
def dyAdd (a b : Dy) : Dy :=
  ⟨a.m * 2 ^ (max a.k b.k - a.k).toNat + b.m * 2 ^ (max a.k b.k - b.k).toNat,
   max a.k b.k⟩

/-- Round a dyadic to the nearest binary64 value (53 significant bits,
ties to even).  If the mantissa already fits in 53 bits the value is
returned unchanged. -/
def dyFloat (a : Dy) : Dy :=
  let bl : ℤ := (natBitLen a.m.natAbs : ℤ)
  if bl ≤ 53 then a
  else ⟨bankerInt a.m (2 ^ (bl - 53).toNat), a.k - (bl - 53)⟩

/-- Python `round` applied to the (exact dyadic) value of a float. -/
def dyRound (a : Dy) : ℤ :=
  if 0 ≤ a.k then bankerInt a.m (2 ^ a.k.toNat) else a.m * 2 ^ (-a.k).toNat

/-- The binary64 value of the literal `0.7`. -/
def d7 : Dy := ⟨3152519739159347, 52⟩

/-- The binary64 value of the literal `0.3`. -/
def d3 : Dy := ⟨5404319552844595, 54⟩

/-- The binary64 value of the literal `0.20`. -/
def d20 : Dy := ⟨3602879701896397, 54⟩

/-- The binary64 value of the literal `0.15`. -/
def d15 : Dy := ⟨5404319552844595, 55⟩

/-- `round(rule * 0.7 + judged * 0.3)` exactly as Python evaluates it
(`rule` and `judged` are ints and convert to doubles exactly). -/
def blendFloat (rule judged : ℤ) : ℤ :=
  dyRound (dyFloat (dyAdd (dyFloat (dyMulInt d7 rule)) (dyFloat (dyMulInt d3 judged))))

/-- `round(0.20*ci + 0.30*ans + 0.20*eeat + 0.15*st + 0.15*co)` exactly as
Python evaluates it (left-associated float additions). -/
def compositeFloat (ci ans eeat st co : ℤ) : ℤ :=
  dyRound (dyFloat (dyAdd
    (dyFloat (dyAdd
      (dyFloat (dyAdd
        (dyFloat (dyAdd (dyFloat (dyMulInt d20 ci)) (dyFloat (dyMulInt d3 ans))))
        (dyFloat (dyMulInt d20 eeat))))
      (dyFloat (dyMulInt d15 st))))
    (dyFloat (dyMulInt d15 co))))

set_option maxRecDepth 4000

example : blendFloat 45 0 = 31 := by decide
example : blendFloat 5 0 = 4 := by decide
example : compositeFloat 3 49 55 77 11 = 39 := by decide
example : compositeFloat 70 45 0 30 90 = 46 := by decide
example : compositeFloat 50 45 0 30 90 = 42 := by decide

/-! ## Python string primitives (strings as lists of code points) -/

/-- Python's substring operator `needle in haystack`. -/
def listContains (haystack needle : List Char) : Bool :=
  haystack.tails.any (fun t => needle.isPrefixOf t)

/-- Python `str.strip()` (whitespace at both ends removed). -/
def pyStrip (s : List Char) : List Char :=
  ((s.dropWhile Char.isWhitespace).reverse.dropWhile Char.isWhitespace).reverse

/-- Python `str.lower()` (ASCII case folding; the Japanese keywords are
unaffected by case folding). -/
def lowerL (s : List Char) : List Char := s.map Char.toLower

/-- Python `str.upper()`. -/
def upperL (s : List Char) : List Char := s.map Char.toUpper

/-- Python `str(n)` for the non-negative counts interpolated into
evidence strings. -/
def natChars (n : Nat) : List Char := Nat.toDigits 10 n

/-! ## JSON values (results of `json.loads`) -/

/-- A parsed JSON document. -/
inductive Json where
  | null : Json
  | bool : Bool → Json
  | num : ℤ → Json
  | str : List Char → Json
  | arr : List Json → Json
  | obj : List (List Char × Json) → Json

/-- Equality test used for membership in the `schema_types` set.  Only
hashable values (never `arr`/`obj`, whose insertion raises before
reaching the set) are ever compared, so a non-recursive comparison is
exact. -/
def Json.scalarEq : Json → Json → Bool
  | .null, .null => true
  | .bool a, .bool b => a == b
  | .num a, .num b => a == b
  | .str a, .str b => a == b
  | _, _ => false

/-- Python truthiness of a JSON value. -/
def Json.truthy : Json → Bool
  | .null => false
  | .bool b => b
  | .num n => decide (n ≠ 0)
  | .str s => !s.isEmpty
  | .arr xs => !xs.isEmpty
  | .obj fs => !fs.isEmpty

/-- Whether a JSON value is hashable in Python (lists and dicts are not;
adding an unhashable value to a set raises `TypeError`). -/
def Json.hashable : Json → Bool
  | .arr _ => false
  | .obj _ => false
  | _ => true

/-- Python `dict.get(key, default)` on a parsed JSON object (duplicate
keys in the source keep the last occurrence, as `json.loads` does). -/
def dictGet (fields : List (List Char × Json)) (key : List Char) (dflt : Json) : Json :=
  ((fields.reverse.find? (fun kv => decide (kv.1 = key))).map (fun kv => kv.2)).getD dflt

/-- Python `dict.get(key, default)` on the external judgment mapping. -/
def llmGet (l : List (List Char × ℤ)) (key : List Char) (dflt : ℤ) : ℤ :=
  ((l.reverse.find? (fun kv => decide (kv.1 = key))).map (fun kv => kv.2)).getD dflt

/-! ## The page abstraction

A `Page` records exactly the outcomes of the BeautifulSoup queries that
`scorer.py` and `extractor.py` perform. -/

/-- A `<meta>` tag: its `content` attribute, when present. -/
structure MetaTag where
  content : Option (List Char)
deriving DecidableEq, Repr

/-- An `<h2>`/`<h3>` heading in document order, as the extractor sees it:
its tag name (`h2` or `h3`), its `get_text(strip=True)` text, and the
`get_text(strip=True)` text of its immediately following `<p>` sibling
when that exists. -/
structure Heading where
  tagName : List Char
  text : List Char
  nextP : Option (List Char)
deriving DecidableEq, Repr

/-- Abstract parsed page. -/
structure Page where
  /-- `soup.find("title")`: the `get_text(strip=True)` text when the tag
  exists (possibly empty). -/
  titleText : Option (List Char)
  /-- `soup.find("meta", {"name": "description"})`. -/
  metaDescription : Option MetaTag
  /-- `soup.find("meta", {"name": "robots"})`. -/
  robotsMeta : Option MetaTag
  /-- `soup.find("meta", {"name": "googlebot"})`. -/
  googlebotMeta : Option MetaTag
  /-- `soup.find("link", {"rel": "canonical"})`: its `href` attribute when
  the tag exists. -/
  canonical : Option (Option (List Char))
  /-- `len(soup.find_all("h1"))`. -/
  h1Count : Nat
  /-- `len(soup.find_all("h2"))`. -/
  h2Count : Nat
  /-- `len(soup.find_all("h3"))`. -/
  h3Count : Nat
  /-- whether `soup.find(["section", "div"], class_=re.compile("summary|conclusion", re.I))`
  finds a tag. -/
  hasSummaryClass : Bool
  /-- `len(soup.find_all("ul"))`. -/
  ulCount : Nat
  /-- `len(soup.find_all("ol"))`. -/
  olCount : Nat
  /-- `len(soup.find_all("li"))`. -/
  liCount : Nat
  /-- whether `soup.find_all(["h1","h2","h3"], string=re.compile("FAQ|よくある|質問", re.I))`
  is non-empty. -/
  hasFaqHeading : Bool
  /-- whether `soup.find_all(["h1","h2","h3"], string=re.compile("How|使い方|手順|方法", re.I))`
  is non-empty. -/
  hasHowtoHeading : Bool
  /-- `soup.find("meta", {"name": "author"})`. -/
  authorMetaName : Option MetaTag
  /-- `soup.find("meta", {"property": "article:author"})`. -/
  authorMetaProp : Option MetaTag
  /-- whether `soup.find_all("a", href=re.compile("contact|mailto|tel"))`
  is non-empty. -/
  hasContactLink : Bool
  /-- whether `soup.find` locates an `article:modified_time` or
  `article:published_time` meta tag. -/
  hasDateMeta : Bool
  /-- `len(soup.find_all("a", href=re.compile("^https?://")))`. -/
  externalLinkCount : Nat
  /-- the parse results of the `application/ld+json` script blocks in
  document order; `none` records a block on which `json.loads` raised
  (malformed JSON or a `None` string). -/
  ldJsonBlocks : List (Option Json)
  /-- `len(soup.find_all(attrs={"itemtype": True}))`. -/
  microdataCount : Nat
  /-- `len(soup.find_all("p"))`. -/
  pCount : Nat
  /-- `len(soup.find_all("img"))`. -/
  imgCount : Nat
  /-- `soup.find("h1")` for the extractor: its text and its immediately
  following `<p>` sibling's text. -/
  firstH1 : Option (List Char × Option (List Char))
  /-- `soup.find_all(["h2", "h3"])` for the extractor. -/
  h23Headings : List Heading
  /-- `soup.get_text(separator=" ", strip=True)`, the extractor's
  fallback text. -/
  bodyText : List Char

/-! ## The definition-sentence patterns of `_check_answerability`

`re.findall` counts of the four patterns, with the scan-and-skip
(non-overlapping, leftmost) semantics of `findall`. -/

/-- Whether `とは` followed by a separator of `seps` matches at the head
of the list. -/
def tohaMatchAt (seps : List Char) : List Char → Bool
  | c0 :: c1 :: c2 :: _ => c0 = 'と' && c1 = 'は' && decide (c2 ∈ seps)
  | _ => false

/-- `re.findall` count of `とは[、。]` (pattern 1) or `とは、` (pattern 2),
the separator class being the parameter.  Matches of these patterns can
never overlap (`と` occurs only at a match's start), so the number of
non-overlapping matches equals the number of positions where a match
starts. -/
def countToha (seps : List Char) : List Char → Nat
  | [] => 0
  | c :: rest => (if tohaMatchAt seps (c :: rest) then 1 else 0) + countToha seps rest

/-- Whether `とは\s*[^とは]{10,}` matches at the head of the list.  Since
every whitespace character also belongs to `[^とは]`, the pattern matches
exactly when the run of non-`と`/`は` characters after `とは` has length
at least 10. -/
def toha3MatchAt : List Char → Bool
  | c0 :: c1 :: rest2 =>
    c0 = 'と' && c1 = 'は' &&
      10 ≤ (rest2.takeWhile (fun c => decide (c ≠ 'と') && decide (c ≠ 'は'))).length
  | _ => false

/-- `re.findall` count of `とは\s*[^とは]{10,}` (pattern 3).  A match is
`と`, `は`, then a run free of `と`, so no later match can start inside an
earlier one: the non-overlapping count equals the number of positions
where a match starts. -/
def countToha3 : List Char → Nat
  | [] => 0
  | c :: rest => (if toha3MatchAt (c :: rest) then 1 else 0) + countToha3 rest

/-- Whether `である[。]` matches at the head of the list. -/
def dearuMatchAt : List Char → Bool
  | c0 :: c1 :: c2 :: c3 :: _ => c0 = 'で' && c1 = 'あ' && c2 = 'る' && c3 = '。'
  | _ => false

/-- `re.findall` count of `である[。]` (pattern 4); as above, matches
cannot overlap. -/
def countDearu : List Char → Nat
  | [] => 0
  | c :: rest => (if dearuMatchAt (c :: rest) then 1 else 0) + countDearu rest

/-- `definition_count` of `_check_answerability`: the summed `findall`
counts of the four patterns. -/
def definitionCount (full_text : List Char) : Nat :=
  countToha ['、', '。'] full_text + countToha ['、'] full_text
    + countToha3 full_text + countDearu full_text

/-! ## The date patterns of `_check_eeat_proxy` -/

/-- `\d{4}`. -/
def match4Digits : List Char → Option (List Char)
  | a :: b :: c :: d :: rest =>
    if a.isDigit ∧ b.isDigit ∧ c.isDigit ∧ d.isDigit then some rest else none
  | _ => none

/-- `\d{1,2}` immediately followed by a character of `seps` (greedy with
backtracking). -/
def match12DigitsThen (seps : List Char) : List Char → Option (List Char)
  | a :: b :: c :: rest =>
    if a.isDigit ∧ b.isDigit ∧ c ∈ seps then some rest
    else if a.isDigit ∧ b ∈ seps then some (c :: rest)
    else none
  | a :: b :: rest =>
    if a.isDigit ∧ b ∈ seps then some rest else none
  | _ => none

/-- A final `\d{1,2}` with nothing required after it. -/
def match12DigitsEnd : List Char → Option (List Char)
  | a :: b :: rest =>
    if a.isDigit ∧ b.isDigit then some rest
    else if a.isDigit then some (b :: rest) else none
  | [a] => if a.isDigit then some [] else none
  | [] => none

/-- `[：:]\s*\d{4}(-|/|年)\d{1,2}(-|/|月)\d{1,2}`, the common tail of the
first two date patterns. -/
def matchDateTail (s : List Char) : Bool :=
  match s with
  | c :: rest =>
    if c = '：' ∨ c = ':' then
      match match4Digits (rest.dropWhile Char.isWhitespace) with
      | some r2 =>
        match r2 with
        | sc :: r3 =>
          if sc ∈ ['-', '/', '年'] then
            match match12DigitsThen ['-', '/', '月'] r3 with
            | some r4 => (match12DigitsEnd r4).isSome
            | none => false
          else false
        | [] => false
      | none => false
    else false
  | [] => false

/-- `re.search` of `更新日[：:]\s*...` (year-month-day with -, / or kanji separators). -/
def searchDateA : List Char → Bool
  | [] => false
  | c :: rest =>
    (if c = '更' then
      match rest with
      | c1 :: c2 :: r => if c1 = '新' ∧ c2 = '日' then matchDateTail r else false
      | _ => false
    else false) || searchDateA rest

/-- `re.search` of `最終更新[：:]\s*...` (same date tail). -/
def searchDateB : List Char → Bool
  | [] => false
  | c :: rest =>
    (if c = '最' then
      match rest with
      | c1 :: c2 :: c3 :: r =>
        if c1 = '終' ∧ c2 = '更' ∧ c3 = '新' then matchDateTail r else false
      | _ => false
    else false) || searchDateB rest

/-- A match of `(\d{4}年\d{1,2}月\d{1,2}日)\s*更新` at the start of `s`. -/
def matchDateC (s : List Char) : Bool :=
  match match4Digits s with
  | some r1 =>
    match r1 with
    | '年' :: r2 =>
      match match12DigitsThen ['月'] r2 with
      | some r3 =>
        match match12DigitsThen ['日'] r3 with
        | some r4 =>
          match r4.dropWhile Char.isWhitespace with
          | c1 :: c2 :: _ => c1 = '更' ∧ c2 = '新'
          | _ => false
        | none => false
      | none => false
    | _ => false
  | none => false

/-- `re.search` of `(\d{4}年\d{1,2}月\d{1,2}日)\s*更新`. -/
def searchDateC : List Char → Bool
  | [] => false
  | c :: rest => matchDateC (c :: rest) || searchDateC rest

/-! ## Detector results -/

/-- A detector result: the clamped score and the evidence strings. -/
structure CheckResult where
  score : ℤ
  details : List (List Char)
deriving DecidableEq, Repr

/-- The final clamp `score = max(0, min(100, score))`. -/
def clampScore (s : ℤ) : ℤ := max 0 (min 100 s)

/-! ## `_check_crawl_index_health` -/

/-- `_check_crawl_index_health(soup, url)` (the `url` parameter is unused
by the code). -/
def _check_crawl_index_health (soup : Page) (url : List Char) : CheckResult :=
  let score : ℤ := 0
  let details : List (List Char) := []
  let title_tag := soup.titleText
  let (score, details) :=
    match title_tag with
    | some t =>
      if !t.isEmpty then (score + 25, details ++ ["titleあり".toList])
      else (score, details ++ ["titleなし".toList])
    | none => (score, details ++ ["titleなし".toList])
  let meta_desc := soup.metaDescription
  let (score, details) :=
    match meta_desc with
    | some m =>
      if !(pyStrip (m.content.getD [])).isEmpty then
        (score + 25, details ++ ["descriptionあり".toList])
      else (score, details ++ ["descriptionなし".toList])
    | none => (score, details ++ ["descriptionなし".toList])
  let noindex := soup.robotsMeta <|> soup.googlebotMeta
  let (score, details) :=
    match noindex with
    | some m =>
      if listContains (lowerL (m.content.getD [])) ("noindex".toList) then
        let score := score - 30
        let details := details ++ ["noindex検出".toList]
        (if score < 0 then 0 else score, details)
      else (score, details)
    | none => (score, details)
  let (score, details) :=
    match soup.canonical with
    | some href =>
      if !(href.getD []).isEmpty then (score + 20, details ++ ["canonicalあり".toList])
      else (score, details ++ ["canonicalなし".toList])
    | none => (score, details ++ ["canonicalなし".toList])
  let (score, details) :=
    match title_tag with
    | some t =>
      if t.length < 10 then (score - 10, details ++ ["titleが短すぎる可能性".toList])
      else (score, details)
    | none => (score, details)
  let (score, details) :=
    match meta_desc with
    | some m =>
      if (m.content.getD []).length < 50 then
        (score - 10, details ++ ["descriptionが短すぎる可能性".toList])
      else (score, details)
    | none => (score, details)
  ⟨clampScore score, details⟩

/-! ## `_check_answerability` -/

/-- `summary_keywords`. -/
def summaryKeywords : List (List Char) :=
  ["まとめ", "要約", "結論", "ポイント", "まとめて", "要点"].map String.toList

/-- `faq_keywords`. -/
def faqKeywords : List (List Char) :=
  ["よくある質問", "FAQ", "Q&A", "Q and A", "質問", "よくあるご質問", "よくある"].map String.toList

/-- `howto_keywords`. -/
def howtoKeywords : List (List Char) :=
  ["How to", "使い方", "方法", "手順", "ステップ", "やり方", "ガイド"].map String.toList

/-- `_check_answerability(soup, full_text)`. -/
def _check_answerability (soup : Page) (full_text : List Char) : CheckResult :=
  let score : ℤ := 0
  let details : List (List Char) := []
  let h1_count := soup.h1Count
  let h2_count := soup.h2Count
  let (score, details) :=
    if h1_count = 1 then (score + 20, details ++ ["H1が1つ".toList])
    else if h1_count > 1 then
      (score + 10, details ++ ["H1が".toList ++ natChars h1_count ++ "つ（複数）".toList])
    else (score, details ++ ["H1なし".toList])
  let (score, details) :=
    if h2_count ≥ 3 then
      (score + 20, details ++ ["H2が".toList ++ natChars h2_count ++ "つ（良好）".toList])
    else if h2_count > 0 then
      (score + 10, details ++ ["H2が".toList ++ natChars h2_count ++ "つ".toList])
    else (score, details ++ ["H2なし".toList])
  let has_summary :=
    summaryKeywords.any (fun kw => listContains full_text kw) || soup.hasSummaryClass
  let (score, details) :=
    if has_summary then (score + 15, details ++ ["要点サマリあり".toList])
    else (score, details)
  let definition_count := definitionCount full_text
  let (score, details) :=
    if definition_count ≥ 3 then (score + 15, details ++ ["定義文が3つ以上".toList])
    else if definition_count > 0 then
      (score + 10, details ++ ["定義文が".toList ++ natChars definition_count ++ "つ".toList])
    else (score, details)
  let total_lists := soup.ulCount + soup.olCount
  let li_count := soup.liCount
  let (score, details) :=
    if li_count ≥ 10 then
      (score + 20, details ++ ["箇条書きが".toList ++ natChars li_count ++ "項目以上".toList])
    else if li_count ≥ 5 then
      (score + 15, details ++ ["箇条書きが".toList ++ natChars li_count ++ "項目".toList])
    else if li_count > 0 then
      (score + 10, details ++ ["箇条書きが".toList ++ natChars li_count ++ "項目".toList])
    else (score, details)
  let text_len := full_text.length
  let (score, details) :=
    if text_len > 8000 then (score + 10, details ++ ["テキスト量：8000文字以上".toList])
    else if text_len > 4000 then (score + 5, details ++ ["テキスト量：4000文字以上".toList])
    else if text_len < 1000 then (score - 10, details ++ ["テキスト量不足（1000文字未満）".toList])
    else (score, details)
  let has_faq_keyword := faqKeywords.any (fun kw => listContains (lowerL full_text) (lowerL kw))
  let has_howto_keyword := howtoKeywords.any (fun kw => listContains (lowerL full_text) (lowerL kw))
  let (score, details) :=
    if soup.hasFaqHeading then (score + 15, details ++ ["FAQセクション検出".toList])
    else if has_faq_keyword then (score + 10, details ++ ["FAQキーワードあり".toList])
    else (score, details)
  let (score, details) :=
    if soup.hasHowtoHeading then (score + 15, details ++ ["HowToセクション検出".toList])
    else if has_howto_keyword then (score + 10, details ++ ["HowToキーワードあり".toList])
    else (score, details)
  let _ := total_lists
  ⟨clampScore score, details⟩

/-! ## `_check_eeat_proxy` -/

/-- `author_keywords`. -/
def authorKeywords : List (List Char) :=
  ["著者", "作者", "執筆", "writer", "author"].map String.toList

/-- `operator_keywords`. -/
def operatorKeywords : List (List Char) :=
  ["運営", "運営者", "会社", "企業", "組織", "運営会社"].map String.toList

/-- `contact_keywords`. -/
def contactKeywords : List (List Char) :=
  ["お問い合わせ", "問い合わせ", "連絡先", "contact", "メール", "電話"].map String.toList

/-- `company_keywords`. -/
def companyKeywords : List (List Char) :=
  ["会社概要", "企業情報", "about", "会社名", "所在地", "設立"].map String.toList

/-- `_check_eeat_proxy(soup, full_text)`. -/
def _check_eeat_proxy (soup : Page) (full_text : List Char) : CheckResult :=
  let score : ℤ := 0
  let details : List (List Char) := []
  let author_meta := soup.authorMetaName <|> soup.authorMetaProp
  let has_author_meta :=
    match author_meta with
    | some m => !(m.content.getD []).isEmpty
    | none => false
  let has_author_keyword := authorKeywords.any (fun kw => listContains full_text kw)
  let (score, details) :=
    if has_author_meta || has_author_keyword then
      (score + 20, details ++ ["著者情報あり".toList])
    else (score, details)
  let has_operator := operatorKeywords.any (fun kw => listContains full_text kw)
  let (score, details) :=
    if has_operator then (score + 15, details ++ ["運営者情報あり".toList])
    else (score, details)
  let has_contact_keyword := contactKeywords.any (fun kw => listContains full_text kw)
  let (score, details) :=
    if soup.hasContactLink || has_contact_keyword then
      (score + 20, details ++ ["問い合わせ情報あり".toList])
    else (score, details)
  let has_company := companyKeywords.any (fun kw => listContains full_text kw)
  let (score, details) :=
    if has_company then (score + 15, details ++ ["会社情報あり".toList])
    else (score, details)
  let has_date_text := searchDateA full_text || searchDateB full_text || searchDateC full_text
  let (score, details) :=
    if soup.hasDateMeta || has_date_text then
      (score + 15, details ++ ["更新日情報あり".toList])
    else (score, details)
  let n := soup.externalLinkCount
  let (score, details) :=
    if n ≥ 5 then (score + 15, details ++ ["外部リンクが5つ以上".toList])
    else if n > 0 then
      (score + 10, details ++ ["外部リンクが".toList ++ natChars n ++ "つ".toList])
    else (score, details)
  ⟨clampScore score, details⟩

/-! ## `_check_structured_data` -/

/-- `schema_types.add(t)`: insert into the set unless already present
(insertion order is kept; the later iteration over the Python set is
modelled as iteration in insertion order, which no score depends on since
addition is commutative). -/
def setAdd (acc : List Json) (t : Json) : List Json :=
  if acc.any (fun x => Json.scalarEq x t) then acc else acc ++ [t]

/-- The `for item in data` loop over a JSON array block.  An unhashable
`@type` (a list or dict) makes `schema_types.add` raise `TypeError`,
which the surrounding `except` swallows: the remaining items of that
block are skipped but earlier insertions survive. -/
def processItems (acc : List Json) : List Json → List Json
  | [] => acc
  | item :: rest =>
    match item with
    | Json.obj fields =>
      let schema_type := dictGet fields ("@type".toList) (Json.str [])
      if schema_type.truthy then
        if schema_type.hashable then processItems (setAdd acc schema_type) rest
        else acc
      else processItems acc rest
    | _ => processItems acc rest

/-- Processing of one `application/ld+json` block (`none` = `json.loads`
raised, swallowed by the bare `except`). -/
def processBlock (acc : List Json) : Option Json → List Json
  | none => acc
  | some (Json.arr items) => processItems acc items
  | some (Json.obj fields) =>
    let schema_type := dictGet fields ("@type".toList) (Json.str [])
    if schema_type.truthy then
      if schema_type.hashable then setAdd acc schema_type else acc
    else acc
  | some _ => acc

/-- The `schema_types` set collected from all blocks. -/
def collectTypes (blocks : List (Option Json)) : List Json :=
  blocks.foldl processBlock []

/-- `important_types`, in iteration order. -/
def importantTypes : List (List Char × ℤ) :=
  [("FAQPage".toList, 30), ("HowTo".toList, 30), ("Product".toList, 25),
   ("Article".toList, 25), ("BlogPosting".toList, 25), ("BreadcrumbList".toList, 20),
   ("Organization".toList, 20), ("WebPage".toList, 15), ("WebSite".toList, 15)]

/-- The scoring loop over the collected types.  `key in schema_type` on a
non-string raises an uncaught `TypeError`, modelled by `.error ()`; only
hashable truthy values can be in the set, and of those only strings
support `in`. -/
def scoreTypesGo (sc : ℤ) (ds : List (List Char)) : List Json → Except Unit (ℤ × List (List Char))
  | [] => Except.ok (sc, ds)
  | t :: rest =>
    match t with
    | Json.str s =>
      match importantTypes.find? (fun kp => listContains s kp.1) with
      | some kp => scoreTypesGo (sc + kp.2) (ds ++ ["Schema: ".toList ++ s ++ "検出".toList]) rest
      | none => scoreTypesGo sc ds rest
    | _ => Except.error ()

/-- `_check_structured_data(soup)`. -/
def _check_structured_data (soup : Page) : Except Unit CheckResult :=
  let schema_types := collectTypes soup.ldJsonBlocks
  match scoreTypesGo 0 [] schema_types with
  | Except.error e => Except.error e
  | Except.ok (score, details) =>
    let (score, details) :=
      if soup.microdataCount > 0 then
        (score + 10,
         details ++ ["マイクロデータが".toList ++ natChars soup.microdataCount ++ "個".toList])
      else (score, details)
    Except.ok ⟨clampScore score, details⟩

/-! ## `_check_content_consistency` -/

/-- `_check_content_consistency(soup, full_text)`. -/
def _check_content_consistency (soup : Page) (full_text : List Char) : CheckResult :=
  let score : ℤ := 50
  let details : List (List Char) := []
  let text_len := full_text.length
  let (score, details) :=
    if text_len < 500 then (score - 30, details ++ ["コンテンツが薄い（500文字未満）".toList])
    else if text_len < 1000 then
      (score - 20, details ++ ["コンテンツがやや薄い（1000文字未満）".toList])
    else if text_len > 5000 then
      (score + 20, details ++ ["コンテンツが充実（5000文字以上）".toList])
    else (score, details)
  let h1_count := soup.h1Count
  let h2_count := soup.h2Count
  let (score, details) :=
    if h1_count = 1 ∧ h2_count ≥ 2 then (score + 20, details ++ ["見出し構造が適切".toList])
    else if h1_count = 0 ∨ h2_count = 0 then
      (score - 15, details ++ ["見出し構造が不十分".toList])
    else (score, details)
  let p_count := soup.pCount
  let img_count := soup.imgCount
  let list_count := soup.ulCount + soup.olCount
  let (score, details) :=
    if p_count ≥ 5 ∧ (img_count > 0 ∨ list_count > 0) then
      (score + 10, details ++ ["コンテンツ要素が多様".toList])
    else if p_count < 3 then (score - 10, details ++ ["段落が少ない".toList])
    else (score, details)
  ⟨clampScore score, details⟩

/-! ## `extract_important_sections` (extractor.py) -/

/-- `extract_important_sections(soup)`. -/
def extract_important_sections (soup : Page) : List Char :=
  let parts : List (List Char) := []
  let parts :=
    match soup.firstH1 with
    | some (t, pOpt) =>
      let parts := parts ++ ["[H1] ".toList ++ t]
      match pOpt with
      | some pt => parts ++ ["- ".toList ++ pt]
      | none => parts
    | none => parts
  let parts := soup.h23Headings.foldl (fun parts tag =>
    let parts := parts ++ ["[".toList ++ upperL tag.tagName ++ "] ".toList ++ tag.text]
    match tag.nextP with
    | some pt => parts ++ ["- ".toList ++ pt]
    | none => parts) parts
  if parts.isEmpty then soup.bodyText.take 3000
  else (List.intercalate ['\n'] parts).take 3000

/-! ## `calculate_scores` -/

/-- The returned score dictionary: the five blended category scores
(keys `Crawl/Index健全性`, `回答性`, `信頼性`, `構造化データ`,
`コンテンツ一貫性`) and the composite `総合スコア`. -/
structure ScoreSet where
  crawlIndex : ℤ
  answerability : ℤ
  eeat : ℤ
  structuredData : ℤ
  consistency : ℤ
  total : ℤ
deriving DecidableEq, Repr

/-- `calculate_scores(url, soup, full_text, llm_scores)`.  `llm_scores`
is the optional external judgment dictionary (`none` = Python `None`);
its Python truthiness check `if llm_scores:` treats an empty dict like
`None`. -/
def calculate_scores (url : List Char) (soup : Page) (full_text : List Char)
    (llm_scores : Option (List (List Char × ℤ))) : Except Unit ScoreSet :=
  let crawl_index := _check_crawl_index_health soup url
  let answerability := _check_answerability soup full_text
  let eeat := _check_eeat_proxy soup full_text
  match _check_structured_data soup with
  | Except.error e => Except.error e
  | Except.ok structured =>
    let consistency := _check_content_consistency soup full_text
    let (cis, ans, ees, sts, cos) :=
      match llm_scores with
      | some l =>
        if !l.isEmpty then
          (blendFloat crawl_index.score (llmGet l ("Crawl/Index健全性".toList) crawl_index.score),
           blendFloat answerability.score (llmGet l ("回答性".toList) answerability.score),
           blendFloat eeat.score (llmGet l ("E-E-A-T".toList) eeat.score),
           blendFloat structured.score (llmGet l ("構造化データ".toList) structured.score),
           blendFloat consistency.score (llmGet l ("コンテンツ一貫性".toList) consistency.score))
        else
          (crawl_index.score, answerability.score, eeat.score, structured.score,
           consistency.score)
      | none =>
        (crawl_index.score, answerability.score, eeat.score, structured.score,
         consistency.score)
    let total := compositeFloat cis ans ees sts cos
    Except.ok ⟨cis, ans, ees, sts, cos, total⟩

deriving instance DecidableEq for Except

/-! ## Concrete pages used by witnesses and counterexamples -/

/-- A page with no tags and no text. -/
def emptyPage : Page :=
  { titleText := none, metaDescription := none, robotsMeta := none,
    googlebotMeta := none, canonical := none, h1Count := 0, h2Count := 0,
    h3Count := 0, hasSummaryClass := false, ulCount := 0, olCount := 0,
    liCount := 0, hasFaqHeading := false, hasHowtoHeading := false,
    authorMetaName := none, authorMetaProp := none, hasContactLink := false,
    hasDateMeta := false, externalLinkCount := 0, ldJsonBlocks := [],
    microdataCount := 0, pCount := 0, imgCount := 0, firstH1 := none,
    h23Headings := [], bodyText := [] }

/-- A page whose Crawl/Index rule score is 45: a title of 16 characters
(+25), a canonical link (+20), no description meta. -/
def pageCrawl45 : Page :=
  { emptyPage with
    titleText := some ("Example Title 16".toList),
    canonical := some (some ("/canonical".toList)) }

example : calculate_scores [] emptyPage [] none = Except.ok ⟨0, 0, 0, 0, 0, 0⟩ := by decide
example :
    calculate_scores [] pageCrawl45 [] (some [("Crawl/Index健全性".toList, 0)]) =
      Except.ok ⟨31, 0, 0, 0, 0, 6⟩ := by decide

/-- A page whose robots meta contains `noindex`. -/
def noindexPage : Page :=
  { emptyPage with robotsMeta := some ⟨some ("noindex".toList)⟩ }

/-- Three JSON-LD blocks that repeat `FAQPage` and add an `Article`, plus
five microdata elements. -/
def pageC7 : Page :=
  { emptyPage with
    ldJsonBlocks :=
      [some (Json.obj [("@type".toList, Json.str ("FAQPage".toList))]),
       some (Json.obj [("@type".toList, Json.str ("FAQPage".toList))]),
       some (Json.obj [("@type".toList, Json.str ("Article".toList))])],
    microdataCount := 5 }

/-- A malformed JSON-LD block followed by a well-formed `FAQPage` one. -/
def pageC8 : Page :=
  { emptyPage with
    ldJsonBlocks := [none, some (Json.obj [("@type".toList, Json.str ("FAQPage".toList))])] }

/-- A page whose description meta content is 50 spaces. -/
def pageC9 : Page :=
  { emptyPage with metaDescription := some ⟨some (List.replicate 50 ' ')⟩ }

/-- An empty `<title>` together with the 50-space description. -/
def pageC9b : Page :=
  { pageC9 with titleText := some [] }

/-- A single JSON-LD block whose `@type` value is a JSON array, plus two
microdata elements. -/
def pageC10 : Page :=
  { emptyPage with
    ldJsonBlocks := [some (Json.obj [("@type".toList, Json.arr [Json.str ("FAQPage".toList)])])],
    microdataCount := 2 }

/-! ## Properties of the rounding primitives -/

theorem bankerInt_int_close (n d : ℤ) (hd : 0 < d) :
    -d ≤ 2 * (bankerInt n d * d - n) ∧ 2 * (bankerInt n d * d - n) ≤ d := by
  unfold bankerInt
  rw [Int.fdiv_eq_ediv _ hd.le]
  have h := Int.ediv_add_emod n d
  have h3 := Int.emod_nonneg n (ne_of_gt hd)
  have h4 := Int.emod_lt_of_pos n hd
  have hqd : n / d * d = n - n % d := by linear_combination h
  have hqd2 : (n / d + 1) * d = n - n % d + d := by linear_combination h
  split_ifs <;> constructor <;> linarith

theorem bankerInt_close (n d : ℤ) (hd : 0 < d) :
    |(bankerInt n d : ℚ) - (n : ℚ) / d| ≤ 1 / 2 := by
  obtain ⟨h1, h2⟩ := bankerInt_int_close n d hd
  have hdQ : (0 : ℚ) < (d : ℚ) := by exact_mod_cast hd
  have he : (bankerInt n d : ℚ) - (n : ℚ) / d
      = ((2 * (bankerInt n d * d - n) : ℤ) : ℚ) / (2 * d) := by
    field_simp
    ring
  rw [he, abs_div, abs_of_pos (by positivity : (0:ℚ) < 2 * (d:ℚ))]
  rw [div_le_div_iff (by positivity) (by norm_num : (0:ℚ) < 2)]
  have habs : |((2 * (bankerInt n d * d - n) : ℤ) : ℚ)| ≤ (d : ℚ) := by
    rw [← Int.cast_abs]
    exact_mod_cast abs_le.mpr ⟨h1, h2⟩
  nlinarith [habs]

theorem bankerInt_eq_of_nearest (n d j : ℤ) (hd : 0 < d)
    (hlo : (j : ℚ) - 1 / 2 < (n : ℚ) / d) (hhi : (n : ℚ) / d < (j : ℚ) + 1 / 2) :
    bankerInt n d = j := by
  have hc := bankerInt_close n d hd
  rw [abs_le] at hc
  have hup : (bankerInt n d : ℚ) < (j : ℚ) + 1 := by linarith [hc.2]
  have hdown : (j : ℚ) - 1 < (bankerInt n d : ℚ) := by linarith [hc.1]
  have hu : bankerInt n d < j + 1 := by exact_mod_cast hup
  have hl : j - 1 < bankerInt n d := by exact_mod_cast hdown
  omega

theorem exactRound_eq_of_nearest (q : ℚ) (j : ℤ)
    (hlo : (j : ℚ) - 1 / 2 < q) (hhi : q < (j : ℚ) + 1 / 2) :
    exactRound q = j := by
  have hfl1 : ⌊q⌋ ≤ j := by
    have : (⌊q⌋ : ℚ) < (j : ℚ) + 1 := lt_of_le_of_lt (Int.floor_le q) (by linarith)
    exact_mod_cast Int.lt_add_one_iff.mp (by exact_mod_cast this)
  have hfl2 : j - 1 ≤ ⌊q⌋ := by
    have h := Int.lt_floor_add_one q
    have : (j : ℚ) - 1 < (⌊q⌋ : ℚ) + 1/2 := by linarith
    have h2 : (j : ℚ) - 3/2 < (⌊q⌋ : ℚ) := by linarith
    have h3 : j - 2 < ⌊q⌋ := by exact_mod_cast (by linarith : (j : ℚ) - 2 < (⌊q⌋ : ℚ))
    omega
  unfold exactRound
  have hfloor := Int.floor_le q
  have hceil := Int.lt_floor_add_one q
  rcases (by omega : ⌊q⌋ = j ∨ ⌊q⌋ = j - 1) with h | h
  · rw [h]
    have : q - (j : ℚ) < 1/2 := by linarith
    simp only [if_pos this]
  · rw [h]
    have hge : (1:ℚ)/2 < q - ((j - 1 : ℤ) : ℚ) := by push_cast; linarith
    have hnot : ¬ (q - ((j - 1 : ℤ) : ℚ) < 1/2) := by linarith
    simp only [if_neg hnot, if_pos hge]
    omega

/-! ## Valuation lemmas for the dyadic emulation -/

theorem dyMulInt_val (a : Dy) (n : ℤ) : (dyMulInt a n).val = a.val * (n : ℚ) := by
  unfold dyMulInt Dy.val
  push_cast
  ring

theorem dyAdd_val (a b : Dy) : (dyAdd a b).val = a.val + b.val := by
  unfold dyAdd Dy.val
  push_cast
  have hpow : ∀ x K : ℤ, x ≤ K →
      ((2 : ℚ) ^ ((K - x).toNat)) * (2 : ℚ) ^ (-K) = (2 : ℚ) ^ (-x) := by
    intro x K hx
    rw [← zpow_natCast (2 : ℚ) ((K - x).toNat), Int.toNat_of_nonneg (by omega), ← zpow_add₀ (by norm_num : (2:ℚ) ≠ 0)]
    congr 1
    omega
  rw [add_mul]
  rw [mul_assoc, mul_assoc, hpow a.k (max a.k b.k) (le_max_left _ _),
    hpow b.k (max a.k b.k) (le_max_right _ _)]

theorem dy_val_eq_div (m : ℤ) (k : ℕ) : (Dy.mk m k).val = (m : ℚ) / 2 ^ k := by
  unfold Dy.val
  rw [zpow_neg, zpow_natCast]
  rw [div_eq_mul_inv]

theorem natBitLen_zero : natBitLen 0 = 0 := rfl

theorem dyFloat_val_close (a : Dy) :
    |(dyFloat a).val - a.val| ≤ |a.val| / 2 ^ 53 := by
  unfold dyFloat
  by_cases hbl : (natBitLen a.m.natAbs : ℤ) ≤ 53
  · simp only [hbl, if_true]
    simp
    positivity
  · simp only [hbl, if_false]
    set B : ℕ := natBitLen a.m.natAbs with hB
    have hB54 : 54 ≤ B := by omega
    have hm0 : a.m.natAbs ≠ 0 := by
      intro h
      rw [h] at hB
      rw [natBitLen_zero] at hB
      omega
    obtain ⟨hlo, hhi⟩ := natBitLen_spec a.m.natAbs (Nat.one_le_iff_ne_zero.mpr hm0)
    rw [← hB] at hlo hhi
    have hs : ((B : ℤ) - 53).toNat = B - 53 := by omega
    set E : ℤ := -(a.k - ((B : ℤ) - 53)) with hE
    have htwo : (2 : ℚ) ≠ 0 := by norm_num
    have hval : (Dy.mk (bankerInt a.m (2 ^ ((B : ℤ) - 53).toNat)) (a.k - ((B : ℤ) - 53))).val
        = (bankerInt a.m (2 ^ (B - 53)) : ℚ) * 2 ^ E := by
      unfold Dy.val
      rw [hs]
    have hcast : ((2 : ℚ) ^ (B - 53 : ℕ)) = (2 : ℚ) ^ ((B : ℤ) - 53) := by
      rw [← zpow_natCast (2 : ℚ) (B - 53)]
      congr 1
      omega
    have haval : a.val = ((a.m : ℚ) / 2 ^ (B - 53 : ℕ)) * 2 ^ E := by
      unfold Dy.val
      rw [hcast, div_eq_mul_inv, ← zpow_neg, mul_assoc, ← zpow_add₀ htwo]
      congr 1
      rw [hE]
      ring
    have habs : |a.val| = |(a.m : ℚ)| * 2 ^ (-a.k) := by
      unfold Dy.val
      rw [abs_mul, abs_of_pos (a := (2 : ℚ) ^ (-a.k)) (by positivity)]
    have hmabs : ((2 : ℚ) ^ (B - 1 : ℕ)) ≤ |(a.m : ℚ)| := by
      rw [← Int.cast_abs, Int.abs_eq_natAbs]
      exact_mod_cast hlo
    have hEpos : (0 : ℚ) < 2 ^ E := by positivity
    rw [hval, habs, haval, ← sub_mul, abs_mul, abs_of_pos hEpos]
    have hclose : |(bankerInt a.m (2 ^ (B - 53)) : ℚ) - (a.m : ℚ) / 2 ^ (B - 53 : ℕ)| ≤ 1 / 2 := by
      have h := bankerInt_close a.m (2 ^ (B - 53)) (by positivity)
      push_cast at h
      exact h
    have e1 : (1 / 2 : ℚ) * 2 ^ E = 2 ^ (E - 1) := by
      rw [zpow_sub₀ htwo]
      ring
    have e2 : ((2 : ℚ) ^ (B - 1 : ℕ)) * 2 ^ (-a.k) / 2 ^ (53 : ℕ) = 2 ^ (E - 1) := by
      have c1 : ((2 : ℚ) ^ (B - 1 : ℕ)) = (2 : ℚ) ^ ((B : ℤ) - 1) := by
        rw [← zpow_natCast (2 : ℚ) (B - 1)]
        congr 1
        omega
      have c2 : ((2 : ℚ) ^ (53 : ℕ)) = (2 : ℚ) ^ ((53 : ℤ)) := by
        rw [← zpow_natCast (2 : ℚ) 53]
        norm_num
      rw [c1, c2, div_eq_mul_inv, ← zpow_neg, mul_assoc, ← zpow_add₀ htwo, ← zpow_add₀ htwo]
      congr 1
      rw [hE]
      ring
    calc |(bankerInt a.m (2 ^ (B - 53)) : ℚ) - (a.m : ℚ) / 2 ^ (B - 53 : ℕ)| * 2 ^ E
        ≤ (1 / 2) * 2 ^ E := mul_le_mul_of_nonneg_right hclose hEpos.le
      _ = 2 ^ (E - 1) := e1
      _ = ((2 : ℚ) ^ (B - 1 : ℕ)) * 2 ^ (-a.k) / 2 ^ (53 : ℕ) := e2.symm
      _ ≤ |(a.m : ℚ)| * 2 ^ (-a.k) / 2 ^ (53 : ℕ) := by gcongr

theorem dyRound_close (a : Dy) : |(dyRound a : ℚ) - a.val| ≤ 1 / 2 := by
  unfold dyRound
  by_cases hk : 0 ≤ a.k
  · simp only [hk, if_true]
    have hd : (0 : ℤ) < 2 ^ a.k.toNat := by positivity
    have hveq : a.val = (a.m : ℚ) / ((2 ^ a.k.toNat : ℤ) : ℚ) := by
      unfold Dy.val
      push_cast
      rw [← zpow_natCast (2 : ℚ) a.k.toNat, Int.toNat_of_nonneg hk, zpow_neg, div_eq_mul_inv]
    rw [hveq]
    exact bankerInt_close a.m (2 ^ a.k.toNat) hd
  · simp only [hk, if_false]
    have hveq : ((a.m * 2 ^ (-a.k).toNat : ℤ) : ℚ) = a.val := by
      unfold Dy.val
      push_cast
      rw [← zpow_natCast (2 : ℚ) (-a.k).toNat, Int.toNat_of_nonneg (by omega)]
    rw [hveq]
    simp

theorem dyRound_eq_of_nearest (a : Dy) (j : ℤ)
    (hlo : (j : ℚ) - 1 / 2 < a.val) (hhi : a.val < (j : ℚ) + 1 / 2) :
    dyRound a = j := by
  unfold dyRound
  by_cases hk : 0 ≤ a.k
  · simp only [hk, if_true]
    have hd : (0 : ℤ) < 2 ^ a.k.toNat := by positivity
    have hveq : a.val = (a.m : ℚ) / ((2 ^ a.k.toNat : ℤ) : ℚ) := by
      unfold Dy.val
      push_cast
      rw [← zpow_natCast (2 : ℚ) a.k.toNat, Int.toNat_of_nonneg hk, zpow_neg, div_eq_mul_inv]
    rw [hveq] at hlo hhi
    exact bankerInt_eq_of_nearest a.m (2 ^ a.k.toNat) j hd hlo hhi
  · simp only [hk, if_false]
    have hveq : ((a.m * 2 ^ (-a.k).toNat : ℤ) : ℚ) = a.val := by
      unfold Dy.val
      push_cast
      rw [← zpow_natCast (2 : ℚ) (-a.k).toNat, Int.toNat_of_nonneg (by omega)]
    rw [← hveq] at hlo hhi
    push_cast at hlo hhi
    have h1 : j - 1 < a.m * 2 ^ (-a.k).toNat := by
      have hq : ((j : ℚ)) - 1 < (a.m : ℚ) * 2 ^ (-a.k).toNat := by linarith
      exact_mod_cast hq
    have h2 : a.m * 2 ^ (-a.k).toNat < j + 1 := by
      have hq : (a.m : ℚ) * 2 ^ (-a.k).toNat < (j : ℚ) + 1 := by linarith
      exact_mod_cast hq
    omega

/-! ## Exact values and errors of the weight constants -/

theorem d7_val : d7.val = 3152519739159347 / 2 ^ 52 := by
  unfold d7 Dy.val
  rw [show (-(52 : ℤ)) = -((52 : ℕ) : ℤ) by norm_num, zpow_neg, zpow_natCast]
  norm_num

theorem d3_val : d3.val = 5404319552844595 / 2 ^ 54 := by
  unfold d3 Dy.val
  rw [show (-(54 : ℤ)) = -((54 : ℕ) : ℤ) by norm_num, zpow_neg, zpow_natCast]
  norm_num

theorem d20_val : d20.val = 3602879701896397 / 2 ^ 54 := by
  unfold d20 Dy.val
  rw [show (-(54 : ℤ)) = -((54 : ℕ) : ℤ) by norm_num, zpow_neg, zpow_natCast]
  norm_num

theorem d15_val : d15.val = 5404319552844595 / 2 ^ 55 := by
  unfold d15 Dy.val
  rw [show (-(55 : ℤ)) = -((55 : ℕ) : ℤ) by norm_num, zpow_neg, zpow_natCast]
  norm_num

/-! ## Error propagation through one float multiplication / addition -/

theorem flMulConst_close (dd : Dy) (w : ℚ) (n : ℤ)
    (hw : |dd.val - w| ≤ 1 / 2 ^ 54) (hb : |dd.val| ≤ 1) (hn : |(n : ℚ)| ≤ 100) :
    |(dyFloat (dyMulInt dd n)).val - w * n| ≤ 1 / 2 ^ 45 := by
  have hvm : (dyMulInt dd n).val = dd.val * n := dyMulInt_val dd n
  have hfl := dyFloat_val_close (dyMulInt dd n)
  rw [hvm] at hfl
  have h1 : |dd.val * (n : ℚ)| ≤ 100 := by
    rw [abs_mul]
    calc |dd.val| * |(n : ℚ)| ≤ 1 * 100 :=
          mul_le_mul hb hn (abs_nonneg _) (by norm_num)
      _ = 100 := by norm_num
  calc |(dyFloat (dyMulInt dd n)).val - w * n|
      ≤ |(dyFloat (dyMulInt dd n)).val - dd.val * n| + |dd.val * n - w * n| :=
        abs_sub_le _ _ _
    _ ≤ |dd.val * (n : ℚ)| / 2 ^ 53 + |dd.val - w| * |(n : ℚ)| := by
        apply add_le_add hfl
        rw [← sub_mul, abs_mul]
    _ ≤ 100 / 2 ^ 53 + (1 / 2 ^ 54) * 100 := by
        apply add_le_add
        · gcongr
        · exact mul_le_mul hw hn (abs_nonneg _) (by norm_num)
    _ ≤ 1 / 2 ^ 45 := by norm_num

theorem flAdd_step (s t : Dy) (ws wt εs εt : ℚ)
    (hs : |s.val - ws| ≤ εs) (ht : |t.val - wt| ≤ εt)
    (hwb : |ws + wt| ≤ 100) (hεs : εs ≤ 1) (hεt : εt ≤ 1) :
    |(dyFloat (dyAdd s t)).val - (ws + wt)| ≤ εs + εt + 102 / 2 ^ 53 := by
  have hsum : (dyAdd s t).val = s.val + t.val := dyAdd_val s t
  have h1 : |(dyAdd s t).val - (ws + wt)| ≤ εs + εt := by
    rw [hsum]
    have e : s.val + t.val - (ws + wt) = (s.val - ws) + (t.val - wt) := by ring
    rw [e]
    calc |(s.val - ws) + (t.val - wt)| ≤ |s.val - ws| + |t.val - wt| := abs_add _ _
      _ ≤ εs + εt := add_le_add hs ht
  have hb : |(dyAdd s t).val| ≤ 102 := by
    have e : (dyAdd s t).val = ((dyAdd s t).val - (ws + wt)) + (ws + wt) := by ring
    calc |(dyAdd s t).val|
        = |((dyAdd s t).val - (ws + wt)) + (ws + wt)| := by rw [← e]
      _ ≤ |(dyAdd s t).val - (ws + wt)| + |ws + wt| := abs_add _ _
      _ ≤ (εs + εt) + 100 := add_le_add h1 hwb
      _ ≤ 102 := by linarith
  have hfl := dyFloat_val_close (dyAdd s t)
  calc |(dyFloat (dyAdd s t)).val - (ws + wt)|
      ≤ |(dyFloat (dyAdd s t)).val - (dyAdd s t).val| + |(dyAdd s t).val - (ws + wt)| :=
        abs_sub_le _ _ _
    _ ≤ |(dyAdd s t).val| / 2 ^ 53 + (εs + εt) := add_le_add hfl h1
    _ ≤ 102 / 2 ^ 53 + (εs + εt) := by gcongr
    _ = εs + εt + 102 / 2 ^ 53 := by ring

/-! ## The blend: closeness to the exact weighted value, bounds, and
agreement with exact rounding away from ties -/

theorem d7_err : |d7.val - 7 / 10| ≤ 1 / 2 ^ 54 := by
  rw [d7_val, abs_le]
  constructor <;> norm_num

theorem d7_abs : |d7.val| ≤ 1 := by
  rw [d7_val, abs_le]
  constructor <;> norm_num

theorem d3_err : |d3.val - 3 / 10| ≤ 1 / 2 ^ 54 := by
  rw [d3_val, abs_le]
  constructor <;> norm_num

theorem d3_abs : |d3.val| ≤ 1 := by
  rw [d3_val, abs_le]
  constructor <;> norm_num

theorem d20_err : |d20.val - 1 / 5| ≤ 1 / 2 ^ 54 := by
  rw [d20_val, abs_le]
  constructor <;> norm_num

theorem d20_abs : |d20.val| ≤ 1 := by
  rw [d20_val, abs_le]
  constructor <;> norm_num

theorem d15_err : |d15.val - 3 / 20| ≤ 1 / 2 ^ 54 := by
  rw [d15_val, abs_le]
  constructor <;> norm_num

theorem d15_abs : |d15.val| ≤ 1 := by
  rw [d15_val, abs_le]
  constructor <;> norm_num

theorem absCast_le_100 (x : ℤ) (h0 : 0 ≤ x) (h1 : x ≤ 100) : |(x : ℚ)| ≤ 100 := by
  rw [abs_le]
  constructor
  · have h : ((-100 : ℤ) : ℚ) ≤ (x : ℚ) := by exact_mod_cast (by omega : (-100 : ℤ) ≤ x)
    simpa using h
  · exact_mod_cast h1

theorem blend_val_close (R J : ℤ) (hR : |(R : ℚ)| ≤ 100) (hJ : |(J : ℚ)| ≤ 100) :
    |(dyFloat (dyAdd (dyFloat (dyMulInt d7 R)) (dyFloat (dyMulInt d3 J)))).val
      - (7 * (R : ℚ) + 3 * (J : ℚ)) / 10| ≤ 1 / 2 ^ 43 := by
  have h1 := flMulConst_close d7 (7 / 10) R d7_err d7_abs hR
  have h2 := flMulConst_close d3 (3 / 10) J d3_err d3_abs hJ
  have hwb : |(7 / 10) * (R : ℚ) + (3 / 10) * (J : ℚ)| ≤ 100 := by
    calc |(7 / 10) * (R : ℚ) + (3 / 10) * (J : ℚ)|
        ≤ |(7 / 10) * (R : ℚ)| + |(3 / 10) * (J : ℚ)| := abs_add _ _
      _ = (7 / 10) * |(R : ℚ)| + (3 / 10) * |(J : ℚ)| := by
          rw [abs_mul, abs_mul, abs_of_pos (show (0:ℚ) < 7 / 10 by norm_num),
            abs_of_pos (show (0:ℚ) < 3 / 10 by norm_num)]
      _ ≤ (7 / 10) * 100 + (3 / 10) * 100 := by gcongr
      _ = 100 := by norm_num
  have hstep := flAdd_step _ _ ((7 / 10) * (R : ℚ)) ((3 / 10) * (J : ℚ)) (1 / 2 ^ 45)
    (1 / 2 ^ 45) h1 h2 hwb (by norm_num) (by norm_num)
  have e : (7 / 10) * (R : ℚ) + (3 / 10) * (J : ℚ) = (7 * (R : ℚ) + 3 * (J : ℚ)) / 10 := by
    ring
  rw [e] at hstep
  calc |(dyFloat (dyAdd (dyFloat (dyMulInt d7 R)) (dyFloat (dyMulInt d3 J)))).val
        - (7 * (R : ℚ) + 3 * (J : ℚ)) / 10|
      ≤ 1 / 2 ^ 45 + 1 / 2 ^ 45 + 102 / 2 ^ 53 := hstep
    _ ≤ 1 / 2 ^ 43 := by norm_num

theorem blendFloat_bounds (R J : ℤ) (hR0 : 0 ≤ R) (hR1 : R ≤ 100)
    (hJ0 : 0 ≤ J) (hJ1 : J ≤ 100) :
    0 ≤ blendFloat R J ∧ blendFloat R J ≤ 100 := by
  have hRq : |(R : ℚ)| ≤ 100 := absCast_le_100 R hR0 hR1
  have hJq : |(J : ℚ)| ≤ 100 := absCast_le_100 J hJ0 hJ1
  have hc := blend_val_close R J hRq hJq
  have hr := dyRound_close (dyFloat (dyAdd (dyFloat (dyMulInt d7 R)) (dyFloat (dyMulInt d3 J))))
  have hR0q : (0 : ℚ) ≤ (R : ℚ) := by exact_mod_cast hR0
  have hR1q : (R : ℚ) ≤ 100 := by exact_mod_cast hR1
  have hJ0q : (0 : ℚ) ≤ (J : ℚ) := by exact_mod_cast hJ0
  have hJ1q : (J : ℚ) ≤ 100 := by exact_mod_cast hJ1
  have ht0 : (0 : ℚ) ≤ (7 * (R : ℚ) + 3 * (J : ℚ)) / 10 := by positivity
  have ht1 : (7 * (R : ℚ) + 3 * (J : ℚ)) / 10 ≤ 100 := by
    rw [div_le_iff (by norm_num : (0:ℚ) < 10)]
    linarith
  rw [abs_le] at hc hr
  have hlow : (-1 : ℚ) < (blendFloat R J : ℚ) := by
    show (-1 : ℚ) < ((dyRound _ : ℤ) : ℚ)
    linarith [hc.1, hr.1]
  have hhigh : (blendFloat R J : ℚ) < 101 := by
    show ((dyRound _ : ℤ) : ℚ) < 101
    linarith [hc.2, hr.2]
  constructor
  · have : (-1 : ℤ) < blendFloat R J := by exact_mod_cast hlow
    omega
  · have : blendFloat R J < (101 : ℤ) := by exact_mod_cast hhigh
    omega

theorem blendFloat_eq_exactRound (R J : ℤ) (hR0 : 0 ≤ R) (hR1 : R ≤ 100)
    (hJ0 : 0 ≤ J) (hJ1 : J ≤ 100) (hmod : (7 * R + 3 * J) % 10 ≠ 5) :
    blendFloat R J = exactRound (((7 * R + 3 * J : ℤ) : ℚ) / 10) := by
  have hRq : |(R : ℚ)| ≤ 100 := absCast_le_100 R hR0 hR1
  have hJq : |(J : ℚ)| ≤ 100 := absCast_le_100 J hJ0 hJ1
  have hc := blend_val_close R J hRq hJq
  set N : ℤ := 7 * R + 3 * J with hN
  have hNcast : ((N : ℤ) : ℚ) = 7 * (R : ℚ) + 3 * (J : ℚ) := by
    rw [hN]
    push_cast
    ring
  set j : ℤ := if N % 10 ≤ 4 then N / 10 else N / 10 + 1 with hj
  have hqr := Int.ediv_add_emod N 10
  have hr0 : 0 ≤ N % 10 := Int.emod_nonneg N (by norm_num)
  have hr1 : N % 10 < 10 := Int.emod_lt_of_pos N (by norm_num)
  have hq10 : (10 : ℚ) * ((N / 10 : ℤ) : ℚ) + ((N % 10 : ℤ) : ℚ) = ((N : ℤ) : ℚ) := by
    exact_mod_cast hqr
  have hsplit : ((N : ℤ) : ℚ) / 10 = ((N / 10 : ℤ) : ℚ) + ((N % 10 : ℤ) : ℚ) / 10 := by
    field_simp
    linarith [hq10]
  have hdist : |((N : ℤ) : ℚ) / 10 - (j : ℚ)| ≤ 4 / 10 := by
    rw [abs_le]
    by_cases hcase : N % 10 ≤ 4
    · have hjq : (j : ℚ) = ((N / 10 : ℤ) : ℚ) := by rw [hj, if_pos hcase]
      have hrq0 : (0 : ℚ) ≤ ((N % 10 : ℤ) : ℚ) := by exact_mod_cast hr0
      have hrq1 : ((N % 10 : ℤ) : ℚ) ≤ 4 := by exact_mod_cast hcase
      rw [hjq, hsplit]
      constructor <;> linarith
    · have hjq : (j : ℚ) = ((N / 10 : ℤ) : ℚ) + 1 := by
        rw [hj, if_neg hcase]
        push_cast
        ring
      have hrq0 : (6 : ℚ) ≤ ((N % 10 : ℤ) : ℚ) := by
        have : 6 ≤ N % 10 := by omega
        exact_mod_cast this
      have hrq1 : ((N % 10 : ℤ) : ℚ) ≤ 9 := by
        have : N % 10 ≤ 9 := by omega
        exact_mod_cast this
      rw [hjq, hsplit]
      constructor <;> linarith
  rw [abs_le] at hc hdist
  rw [hNcast] at hsplit hdist
  have hround : dyRound (dyFloat (dyAdd (dyFloat (dyMulInt d7 R)) (dyFloat (dyMulInt d3 J)))) = j := by
    apply dyRound_eq_of_nearest
    · linarith [hc.1, hdist.1]
    · linarith [hc.2, hdist.2]
  have hexact : exactRound (((N : ℤ) : ℚ) / 10) = j := by
    apply exactRound_eq_of_nearest
    · rw [hNcast]
      linarith [hdist.1]
    · rw [hNcast]
      linarith [hdist.2]
  show dyRound _ = _
  rw [hround, hexact]

/-! ## The composite: closeness, bounds, and agreement with exact
rounding away from ties -/

theorem composite_val_close (a b c d e : ℤ)
    (ha : |(a : ℚ)| ≤ 100) (hb : |(b : ℚ)| ≤ 100) (hc : |(c : ℚ)| ≤ 100)
    (hd : |(d : ℚ)| ≤ 100) (he : |(e : ℚ)| ≤ 100) :
    |(dyFloat (dyAdd
        (dyFloat (dyAdd
          (dyFloat (dyAdd
            (dyFloat (dyAdd (dyFloat (dyMulInt d20 a)) (dyFloat (dyMulInt d3 b))))
            (dyFloat (dyMulInt d20 c))))
          (dyFloat (dyMulInt d15 d))))
        (dyFloat (dyMulInt d15 e)))).val
      - (20 * (a : ℚ) + 30 * (b : ℚ) + 20 * (c : ℚ) + 15 * (d : ℚ) + 15 * (e : ℚ)) / 100|
      ≤ 1 / 2 ^ 41 := by
  have t1 := flMulConst_close d20 (1 / 5) a d20_err d20_abs ha
  have t2 := flMulConst_close d3 (3 / 10) b d3_err d3_abs hb
  have t3 := flMulConst_close d20 (1 / 5) c d20_err d20_abs hc
  have t4 := flMulConst_close d15 (3 / 20) d d15_err d15_abs hd
  have t5 := flMulConst_close d15 (3 / 20) e d15_err d15_abs he
  rw [abs_le] at ha hb hc hd he
  have hw1 : |(1 / 5) * (a : ℚ) + (3 / 10) * (b : ℚ)| ≤ 100 := by
    rw [abs_le]
    constructor <;> linarith [ha.1, ha.2, hb.1, hb.2]
  have hw2 : |((1 / 5) * (a : ℚ) + (3 / 10) * (b : ℚ)) + (1 / 5) * (c : ℚ)| ≤ 100 := by
    rw [abs_le]
    constructor <;> linarith [ha.1, ha.2, hb.1, hb.2, hc.1, hc.2]
  have hw3 : |(((1 / 5) * (a : ℚ) + (3 / 10) * (b : ℚ)) + (1 / 5) * (c : ℚ))
      + (3 / 20) * (d : ℚ)| ≤ 100 := by
    rw [abs_le]
    constructor <;> linarith [ha.1, ha.2, hb.1, hb.2, hc.1, hc.2, hd.1, hd.2]
  have hw4 : |((((1 / 5) * (a : ℚ) + (3 / 10) * (b : ℚ)) + (1 / 5) * (c : ℚ))
      + (3 / 20) * (d : ℚ)) + (3 / 20) * (e : ℚ)| ≤ 100 := by
    rw [abs_le]
    constructor <;> linarith [ha.1, ha.2, hb.1, hb.2, hc.1, hc.2, hd.1, hd.2, he.1, he.2]
  have s1 := flAdd_step _ _ ((1 / 5) * (a : ℚ)) ((3 / 10) * (b : ℚ)) (1 / 2 ^ 45) (1 / 2 ^ 45)
    t1 t2 hw1 (by norm_num) (by norm_num)
  have s2 := flAdd_step _ _ ((1 / 5) * (a : ℚ) + (3 / 10) * (b : ℚ)) ((1 / 5) * (c : ℚ))
    (1 / 2 ^ 45 + 1 / 2 ^ 45 + 102 / 2 ^ 53) (1 / 2 ^ 45) s1 t3 hw2 (by norm_num) (by norm_num)
  have s3 := flAdd_step _ _ ((1 / 5) * (a : ℚ) + (3 / 10) * (b : ℚ) + (1 / 5) * (c : ℚ))
    ((3 / 20) * (d : ℚ))
    (1 / 2 ^ 45 + 1 / 2 ^ 45 + 102 / 2 ^ 53 + 1 / 2 ^ 45 + 102 / 2 ^ 53) (1 / 2 ^ 45)
    s2 t4 hw3 (by norm_num) (by norm_num)
  have s4 := flAdd_step _ _
    ((1 / 5) * (a : ℚ) + (3 / 10) * (b : ℚ) + (1 / 5) * (c : ℚ) + (3 / 20) * (d : ℚ))
    ((3 / 20) * (e : ℚ))
    (1 / 2 ^ 45 + 1 / 2 ^ 45 + 102 / 2 ^ 53 + 1 / 2 ^ 45 + 102 / 2 ^ 53 + 1 / 2 ^ 45
      + 102 / 2 ^ 53) (1 / 2 ^ 45)
    s3 t5 hw4 (by norm_num) (by norm_num)
  have e1 : (1 / 5) * (a : ℚ) + (3 / 10) * (b : ℚ) + (1 / 5) * (c : ℚ) + (3 / 20) * (d : ℚ)
      + (3 / 20) * (e : ℚ)
      = (20 * (a : ℚ) + 30 * (b : ℚ) + 20 * (c : ℚ) + 15 * (d : ℚ) + 15 * (e : ℚ)) / 100 := by
    ring
  rw [e1] at s4
  calc |(dyFloat (dyAdd
        (dyFloat (dyAdd
          (dyFloat (dyAdd
            (dyFloat (dyAdd (dyFloat (dyMulInt d20 a)) (dyFloat (dyMulInt d3 b))))
            (dyFloat (dyMulInt d20 c))))
          (dyFloat (dyMulInt d15 d))))
        (dyFloat (dyMulInt d15 e)))).val
      - (20 * (a : ℚ) + 30 * (b : ℚ) + 20 * (c : ℚ) + 15 * (d : ℚ) + 15 * (e : ℚ)) / 100|
      ≤ 1 / 2 ^ 45 + 1 / 2 ^ 45 + 102 / 2 ^ 53 + 1 / 2 ^ 45 + 102 / 2 ^ 53 + 1 / 2 ^ 45
        + 102 / 2 ^ 53 + 1 / 2 ^ 45 + 102 / 2 ^ 53 := s4
    _ ≤ 1 / 2 ^ 41 := by norm_num

theorem compositeFloat_bounds (a b c d e : ℤ)
    (ha0 : 0 ≤ a) (ha1 : a ≤ 100) (hb0 : 0 ≤ b) (hb1 : b ≤ 100)
    (hc0 : 0 ≤ c) (hc1 : c ≤ 100) (hd0 : 0 ≤ d) (hd1 : d ≤ 100)
    (he0 : 0 ≤ e) (he1 : e ≤ 100) :
    0 ≤ compositeFloat a b c d e ∧ compositeFloat a b c d e ≤ 100 := by
  have hcl := composite_val_close a b c d e (absCast_le_100 a ha0 ha1)
    (absCast_le_100 b hb0 hb1) (absCast_le_100 c hc0 hc1)
    (absCast_le_100 d hd0 hd1) (absCast_le_100 e he0 he1)
  have hr := dyRound_close (dyFloat (dyAdd
    (dyFloat (dyAdd
      (dyFloat (dyAdd
        (dyFloat (dyAdd (dyFloat (dyMulInt d20 a)) (dyFloat (dyMulInt d3 b))))
        (dyFloat (dyMulInt d20 c))))
      (dyFloat (dyMulInt d15 d))))
    (dyFloat (dyMulInt d15 e))))
  have ha0q : (0 : ℚ) ≤ (a : ℚ) := by exact_mod_cast ha0
  have hb0q : (0 : ℚ) ≤ (b : ℚ) := by exact_mod_cast hb0
  have hc0q : (0 : ℚ) ≤ (c : ℚ) := by exact_mod_cast hc0
  have hd0q : (0 : ℚ) ≤ (d : ℚ) := by exact_mod_cast hd0
  have he0q : (0 : ℚ) ≤ (e : ℚ) := by exact_mod_cast he0
  have ha1q : (a : ℚ) ≤ 100 := by exact_mod_cast ha1
  have hb1q : (b : ℚ) ≤ 100 := by exact_mod_cast hb1
  have hc1q : (c : ℚ) ≤ 100 := by exact_mod_cast hc1
  have hd1q : (d : ℚ) ≤ 100 := by exact_mod_cast hd1
  have he1q : (e : ℚ) ≤ 100 := by exact_mod_cast he1
  have ht0 : (0 : ℚ)
      ≤ (20 * (a : ℚ) + 30 * (b : ℚ) + 20 * (c : ℚ) + 15 * (d : ℚ) + 15 * (e : ℚ)) / 100 := by
    positivity
  have ht1 : (20 * (a : ℚ) + 30 * (b : ℚ) + 20 * (c : ℚ) + 15 * (d : ℚ) + 15 * (e : ℚ)) / 100
      ≤ 100 := by
    rw [div_le_iff (by norm_num : (0 : ℚ) < 100)]
    linarith
  rw [abs_le] at hcl hr
  have hlow : (-1 : ℚ) < (compositeFloat a b c d e : ℚ) := by
    show (-1 : ℚ) < ((dyRound _ : ℤ) : ℚ)
    linarith [hcl.1, hr.1]
  have hhigh : (compositeFloat a b c d e : ℚ) < 101 := by
    show ((dyRound _ : ℤ) : ℚ) < 101
    linarith [hcl.2, hr.2]
  constructor
  · have h : (-1 : ℤ) < compositeFloat a b c d e := by exact_mod_cast hlow
    omega
  · have h : compositeFloat a b c d e < (101 : ℤ) := by exact_mod_cast hhigh
    omega

theorem compositeFloat_eq_exactRound (a b c d e : ℤ)
    (ha0 : 0 ≤ a) (ha1 : a ≤ 100) (hb0 : 0 ≤ b) (hb1 : b ≤ 100)
    (hc0 : 0 ≤ c) (hc1 : c ≤ 100) (hd0 : 0 ≤ d) (hd1 : d ≤ 100)
    (he0 : 0 ≤ e) (he1 : e ≤ 100)
    (hmod : (20 * a + 30 * b + 20 * c + 15 * d + 15 * e) % 100 ≠ 50) :
    compositeFloat a b c d e
      = exactRound (((20 * a + 30 * b + 20 * c + 15 * d + 15 * e : ℤ) : ℚ) / 100) := by
  have hcl := composite_val_close a b c d e (absCast_le_100 a ha0 ha1)
    (absCast_le_100 b hb0 hb1) (absCast_le_100 c hc0 hc1)
    (absCast_le_100 d hd0 hd1) (absCast_le_100 e he0 he1)
  set N : ℤ := 20 * a + 30 * b + 20 * c + 15 * d + 15 * e with hN
  have hNcast : ((N : ℤ) : ℚ)
      = 20 * (a : ℚ) + 30 * (b : ℚ) + 20 * (c : ℚ) + 15 * (d : ℚ) + 15 * (e : ℚ) := by
    rw [hN]
    push_cast
    ring
  set j : ℤ := if N % 100 ≤ 49 then N / 100 else N / 100 + 1 with hj
  have hqr := Int.ediv_add_emod N 100
  have hr0 : 0 ≤ N % 100 := Int.emod_nonneg N (by norm_num)
  have hr1 : N % 100 < 100 := Int.emod_lt_of_pos N (by norm_num)
  have hq10 : (100 : ℚ) * ((N / 100 : ℤ) : ℚ) + ((N % 100 : ℤ) : ℚ) = ((N : ℤ) : ℚ) := by
    exact_mod_cast hqr
  have hsplit : ((N : ℤ) : ℚ) / 100 = ((N / 100 : ℤ) : ℚ) + ((N % 100 : ℤ) : ℚ) / 100 := by
    field_simp
    linarith [hq10]
  have hdist : |((N : ℤ) : ℚ) / 100 - (j : ℚ)| ≤ 49 / 100 := by
    rw [abs_le]
    by_cases hcase : N % 100 ≤ 49
    · have hjq : (j : ℚ) = ((N / 100 : ℤ) : ℚ) := by rw [hj, if_pos hcase]
      have hrq0 : (0 : ℚ) ≤ ((N % 100 : ℤ) : ℚ) := by exact_mod_cast hr0
      have hrq1 : ((N % 100 : ℤ) : ℚ) ≤ 49 := by exact_mod_cast hcase
      rw [hjq, hsplit]
      constructor <;> linarith
    · have hjq : (j : ℚ) = ((N / 100 : ℤ) : ℚ) + 1 := by
        rw [hj, if_neg hcase]
        push_cast
        ring
      have hrq0 : (51 : ℚ) ≤ ((N % 100 : ℤ) : ℚ) := by
        have h : 51 ≤ N % 100 := by omega
        exact_mod_cast h
      have hrq1 : ((N % 100 : ℤ) : ℚ) ≤ 99 := by
        have h : N % 100 ≤ 99 := by omega
        exact_mod_cast h
      rw [hjq, hsplit]
      constructor <;> linarith
  rw [abs_le] at hcl hdist
  rw [hNcast] at hsplit hdist
  have hround : dyRound (dyFloat (dyAdd
      (dyFloat (dyAdd
        (dyFloat (dyAdd
          (dyFloat (dyAdd (dyFloat (dyMulInt d20 a)) (dyFloat (dyMulInt d3 b))))
          (dyFloat (dyMulInt d20 c))))
        (dyFloat (dyMulInt d15 d))))
      (dyFloat (dyMulInt d15 e)))) = j := by
    apply dyRound_eq_of_nearest
    · linarith [hcl.1, hdist.1]
    · linarith [hcl.2, hdist.2]
  have hexact : exactRound (((N : ℤ) : ℚ) / 100) = j := by
    apply exactRound_eq_of_nearest
    · rw [hNcast]
      linarith [hdist.1]
    · rw [hNcast]
      linarith [hdist.2]
  show dyRound _ = _
  rw [hround, hexact]

/-! ## Scanner evaluation on homogeneous text

The 6000-character body text of the end-to-end example is `'a'` repeated;
these lemmas evaluate every text scan on such text. -/

theorem isPrefixOf_replicate_false (c : Char) :
    ∀ (w : List Char), (∃ x ∈ w, x ≠ c) → ∀ m, w.isPrefixOf (List.replicate m c) = false := by
  intro w
  induction w with
  | nil =>
    intro hx m
    obtain ⟨x, hx1, _⟩ := hx
    cases hx1
  | cons y w' ih =>
    intro hx m
    cases m with
    | zero => rfl
    | succ m' =>
      rw [List.replicate_succ]
      by_cases hy : y = c
      · subst hy
        have hx' : ∃ x ∈ w', x ≠ y := by
          obtain ⟨x, hx1, hx2⟩ := hx
          rcases List.mem_cons.mp hx1 with h | h
          · exact absurd h hx2
          · exact ⟨x, h, hx2⟩
        simp [List.isPrefixOf_cons₂, ih hx' m']
      · simp [List.isPrefixOf, hy]

theorem listContains_replicate (n : ℕ) (c : Char) (w : List Char)
    (hx : ∃ x ∈ w, x ≠ c) :
    listContains (List.replicate n c) w = false := by
  induction n with
  | zero =>
    unfold listContains
    have h0 := isPrefixOf_replicate_false c w hx 0
    simp only [List.replicate] at h0
    simp [h0]
  | succ n' ih =>
    unfold listContains at ih ⊢
    rw [List.replicate_succ, List.tails_cons]
    simp only [List.any_cons]
    rw [← List.replicate_succ]
    simp [isPrefixOf_replicate_false c w hx (n' + 1), ih]

theorem tohaMatchAt_cons_ne (seps : List Char) (c : Char) (rest : List Char)
    (hc : c ≠ 'と') : tohaMatchAt seps (c :: rest) = false := by
  cases rest with
  | nil => rfl
  | cons c1 r =>
    cases r with
    | nil => rfl
    | cons c2 r2 => simp [tohaMatchAt, hc]

theorem countToha_replicate (seps : List Char) (n : ℕ) :
    countToha seps (List.replicate n 'a') = 0 := by
  induction n with
  | zero => rfl
  | succ n' ih =>
    rw [List.replicate_succ]
    unfold countToha
    rw [tohaMatchAt_cons_ne seps 'a' _ (by decide)]
    simpa using ih

theorem toha3MatchAt_cons_ne (c : Char) (rest : List Char)
    (hc : c ≠ 'と') : toha3MatchAt (c :: rest) = false := by
  cases rest with
  | nil => rfl
  | cons c1 r => simp [toha3MatchAt, hc]

theorem countToha3_replicate (n : ℕ) :
    countToha3 (List.replicate n 'a') = 0 := by
  induction n with
  | zero => rfl
  | succ n' ih =>
    rw [List.replicate_succ]
    unfold countToha3
    rw [toha3MatchAt_cons_ne 'a' _ (by decide)]
    simpa using ih

theorem dearuMatchAt_cons_ne (c : Char) (rest : List Char)
    (hc : c ≠ 'で') : dearuMatchAt (c :: rest) = false := by
  cases rest with
  | nil => rfl
  | cons c1 r =>
    cases r with
    | nil => rfl
    | cons c2 r2 =>
      cases r2 with
      | nil => rfl
      | cons c3 r3 => simp [dearuMatchAt, hc]

theorem countDearu_replicate (n : ℕ) :
    countDearu (List.replicate n 'a') = 0 := by
  induction n with
  | zero => rfl
  | succ n' ih =>
    rw [List.replicate_succ]
    unfold countDearu
    rw [dearuMatchAt_cons_ne 'a' _ (by decide)]
    simpa using ih

theorem definitionCount_replicate (n : ℕ) :
    definitionCount (List.replicate n 'a') = 0 := by
  unfold definitionCount
  rw [countToha_replicate, countToha_replicate, countToha3_replicate, countDearu_replicate]

theorem searchDateA_replicate (n : ℕ) :
    searchDateA (List.replicate n 'a') = false := by
  induction n with
  | zero => rfl
  | succ n' ih =>
    rw [List.replicate_succ]
    unfold searchDateA
    simpa using ih

theorem searchDateB_replicate (n : ℕ) :
    searchDateB (List.replicate n 'a') = false := by
  induction n with
  | zero => rfl
  | succ n' ih =>
    rw [List.replicate_succ]
    unfold searchDateB
    simpa using ih

theorem match4Digits_cons_nondigit (c : Char) (rest : List Char)
    (hc : c.isDigit = false) : match4Digits (c :: rest) = none := by
  cases rest with
  | nil => rfl
  | cons c1 r =>
    cases r with
    | nil => rfl
    | cons c2 r2 =>
      cases r2 with
      | nil => rfl
      | cons c3 r3 => simp [match4Digits, hc]

theorem searchDateC_replicate (n : ℕ) :
    searchDateC (List.replicate n 'a') = false := by
  induction n with
  | zero => rfl
  | succ n' ih =>
    rw [List.replicate_succ]
    unfold searchDateC
    rw [show matchDateC ('a' :: List.replicate n' 'a') = false by
      unfold matchDateC
      rw [match4Digits_cons_nondigit 'a' _ (by decide)]]
    simpa using ih

theorem lowerL_replicate_a (n : ℕ) :
    lowerL (List.replicate n 'a') = List.replicate n 'a' := by
  unfold lowerL
  rw [List.map_replicate]
  have h : 'a'.toLower = 'a' := by decide
  rw [h]

/-! ## The end-to-end example page (spec §8) -/

/-- The 6000-character body text of the end-to-end example. -/
def ft6000 : List Char := List.replicate 6000 'a'

theorem ft6000_len : ft6000.length = 6000 := by
  rw [show ft6000 = List.replicate 6000 'a' from rfl, List.length_replicate]

/-- The end-to-end example page exactly as the specification describes
it: a 15-character title, a 60-character description, one `h1`, three
`h2` each followed by a `p`, one `FAQPage` JSON-LD block — and nothing
else (in particular no canonical link, which the specification does not
mention). -/
def pageC4min : Page :=
  { emptyPage with
    titleText := some (List.replicate 15 'T'),
    metaDescription := some ⟨some (List.replicate 60 'D')⟩,
    h1Count := 1,
    h2Count := 3,
    pCount := 3,
    ldJsonBlocks := [some (Json.obj [("@type".toList, Json.str ("FAQPage".toList))])],
    firstH1 := some (List.replicate 15 'H', some (List.replicate 20 'p')),
    h23Headings :=
      [⟨"h2".toList, List.replicate 10 'h', some (List.replicate 20 'p')⟩,
       ⟨"h2".toList, List.replicate 10 'h', some (List.replicate 20 'p')⟩,
       ⟨"h2".toList, List.replicate 10 'h', some (List.replicate 20 'p')⟩],
    bodyText := List.replicate 6000 'a' }

/-- The same page with a canonical link added (the `25+25+20` of the
specification's expected Crawl/Index score implies one). -/
def pageC4 : Page :=
  { pageC4min with canonical := some (some ("/canonical".toList)) }

theorem any_contains_ft6000_false (kws : List (List Char))
    (h : ∀ kw ∈ kws, ∃ x ∈ kw, x ≠ 'a') :
    kws.any (fun kw => listContains ft6000 kw) = false := by
  rw [List.any_eq_false]
  intro kw hkw
  show ¬ (listContains ft6000 kw = true)
  rw [show ft6000 = List.replicate 6000 'a' from rfl, listContains_replicate 6000 'a' kw (h kw hkw)]
  simp

theorem lowerL_ft6000 : lowerL ft6000 = List.replicate 6000 'a' := by
  rw [show ft6000 = List.replicate 6000 'a' from rfl]
  exact lowerL_replicate_a 6000

theorem any_contains_lower_ft6000_false (kws : List (List Char))
    (h : ∀ kw ∈ kws, ∃ x ∈ lowerL kw, x ≠ 'a') :
    kws.any (fun kw => listContains (lowerL ft6000) (lowerL kw)) = false := by
  rw [List.any_eq_false]
  intro kw hkw
  show ¬ (listContains (lowerL ft6000) (lowerL kw) = true)
  rw [lowerL_ft6000, listContains_replicate 6000 'a' (lowerL kw) (h kw hkw)]
  simp

theorem answerability_eval (soup : Page) (h1 : soup.h1Count = 1) (h2 : soup.h2Count = 3)
    (hsum : soup.hasSummaryClass = false) (hli : soup.liCount = 0)
    (hfaq : soup.hasFaqHeading = false) (hhow : soup.hasHowtoHeading = false) :
    (_check_answerability soup ft6000).score = 45 := by
  unfold _check_answerability
  rw [h1, h2, hsum, hli, hfaq, hhow, ft6000_len]
  rw [any_contains_ft6000_false summaryKeywords (by decide)]
  rw [show definitionCount ft6000 = 0 from definitionCount_replicate 6000]
  rw [any_contains_lower_ft6000_false faqKeywords (by decide)]
  rw [any_contains_lower_ft6000_false howtoKeywords (by decide)]
  norm_num [clampScore]

theorem eeat_eval (soup : Page) (ham : soup.authorMetaName = none)
    (hap : soup.authorMetaProp = none) (hcl : soup.hasContactLink = false)
    (hdm : soup.hasDateMeta = false) (hel : soup.externalLinkCount = 0) :
    (_check_eeat_proxy soup ft6000).score = 0 := by
  unfold _check_eeat_proxy
  rw [ham, hap, hcl, hdm, hel]
  rw [any_contains_ft6000_false authorKeywords (by decide)]
  rw [any_contains_ft6000_false operatorKeywords (by decide)]
  rw [any_contains_ft6000_false contactKeywords (by decide)]
  rw [any_contains_ft6000_false companyKeywords (by decide)]
  rw [show searchDateA ft6000 = false from searchDateA_replicate 6000]
  rw [show searchDateB ft6000 = false from searchDateB_replicate 6000]
  rw [show searchDateC ft6000 = false from searchDateC_replicate 6000]
  norm_num [clampScore]

theorem consistency_eval (soup : Page) (h1 : soup.h1Count = 1) (h2 : soup.h2Count = 3)
    (hp : soup.pCount = 3) (himg : soup.imgCount = 0)
    (hul : soup.ulCount = 0) (hol : soup.olCount = 0) :
    (_check_content_consistency soup ft6000).score = 90 := by
  unfold _check_content_consistency
  rw [h1, h2, hp, himg, hul, hol, ft6000_len]
  norm_num [clampScore]

theorem calc_C4min : calculate_scores [] pageC4min ft6000 none
    = Except.ok ⟨50, 45, 0, 30, 90, 42⟩ := by
  unfold calculate_scores
  rw [show _check_structured_data pageC4min
      = Except.ok ⟨30, ["Schema: FAQPage検出".toList]⟩ from by decide]
  dsimp only
  rw [show (_check_crawl_index_health pageC4min []).score = 50 from by decide,
    answerability_eval pageC4min rfl rfl rfl rfl rfl rfl,
    eeat_eval pageC4min rfl rfl rfl rfl rfl,
    consistency_eval pageC4min rfl rfl rfl rfl rfl rfl]
  rw [show compositeFloat 50 45 0 30 90 = 42 from by decide]

theorem calc_C4 : calculate_scores [] pageC4 ft6000 none
    = Except.ok ⟨70, 45, 0, 30, 90, 46⟩ := by
  unfold calculate_scores
  rw [show _check_structured_data pageC4
      = Except.ok ⟨30, ["Schema: FAQPage検出".toList]⟩ from by decide]
  dsimp only
  rw [show (_check_crawl_index_health pageC4 []).score = 70 from by decide,
    answerability_eval pageC4 rfl rfl rfl rfl rfl rfl,
    eeat_eval pageC4 rfl rfl rfl rfl rfl,
    consistency_eval pageC4 rfl rfl rfl rfl rfl rfl]
  rw [show compositeFloat 70 45 0 30 90 = 46 from by decide]

/-! ## The noindex comparison (C5) -/

/-- `_check_crawl_index_health` with the noindex check skipped: the
comparison score of the claim ("the score the same page would get with
the noindex check skipped"). -/
def crawl_index_health_skip_noindex (soup : Page) (url : List Char) : CheckResult :=
  let score : ℤ := 0
  let details : List (List Char) := []
  let title_tag := soup.titleText
  let (score, details) :=
    match title_tag with
    | some t =>
      if !t.isEmpty then (score + 25, details ++ ["titleあり".toList])
      else (score, details ++ ["titleなし".toList])
    | none => (score, details ++ ["titleなし".toList])
  let meta_desc := soup.metaDescription
  let (score, details) :=
    match meta_desc with
    | some m =>
      if !(pyStrip (m.content.getD [])).isEmpty then
        (score + 25, details ++ ["descriptionあり".toList])
      else (score, details ++ ["descriptionなし".toList])
    | none => (score, details ++ ["descriptionなし".toList])
  let (score, details) :=
    match soup.canonical with
    | some href =>
      if !(href.getD []).isEmpty then (score + 20, details ++ ["canonicalあり".toList])
      else (score, details ++ ["canonicalなし".toList])
    | none => (score, details ++ ["canonicalなし".toList])
  let (score, details) :=
    match title_tag with
    | some t =>
      if t.length < 10 then (score - 10, details ++ ["titleが短すぎる可能性".toList])
      else (score, details)
    | none => (score, details)
  let (score, details) :=
    match meta_desc with
    | some m =>
      if (m.content.getD []).length < 50 then
        (score - 10, details ++ ["descriptionが短すぎる可能性".toList])
      else (score, details)
    | none => (score, details)
  ⟨clampScore score, details⟩

set_option maxHeartbeats 2000000 in
theorem crawl_noindex_le (soup : Page) (url : List Char) (m : MetaTag)
    (hm : (soup.robotsMeta <|> soup.googlebotMeta) = some m)
    (hni : listContains (lowerL (m.content.getD [])) ("noindex".toList) = true) :
    (_check_crawl_index_health soup url).score
      ≤ (crawl_index_health_skip_noindex soup url).score
    ∧ 0 ≤ (_check_crawl_index_health soup url).score := by
  unfold _check_crawl_index_health crawl_index_health_skip_noindex clampScore
  rw [hm]
  cases htt : soup.titleText <;> cases hmd : soup.metaDescription <;>
    cases hcn : soup.canonical <;>
    (try dsimp only) <;> simp only [hni, if_true] <;> split_ifs <;> (try dsimp only) <;>
    constructor <;> omega

/-! ## Extractor properties (C6) -/

theorem extract_length_le (soup : Page) :
    (extract_important_sections soup).length ≤ 3000 := by
  unfold extract_important_sections
  dsimp only
  repeat' split
  all_goals rw [List.length_take]
  all_goals omega

theorem extract_fallback (soup : Page) (h1 : soup.firstH1 = none)
    (h23 : soup.h23Headings = []) :
    extract_important_sections soup = soup.bodyText.take 3000 := by
  unfold extract_important_sections
  rw [h1, h23]
  rfl

/-! ## Structured-data collection at the string level (C7, C8, C10) -/

/-- The `@type` string of one JSON-LD item, when the item is a dict whose
truthy `@type` is a string. -/
def itemTypeStr : Json → Option (List Char)
  | Json.obj fields =>
    match dictGet fields ("@type".toList) (Json.str []) with
    | Json.str s => if (Json.str s).truthy then some s else none
    | _ => none
  | _ => none

/-- The truthy string `@type` occurrences of one parsed block, in
document order and with multiplicity. -/
def blockTypeStrs : Option Json → List (List Char)
  | none => []
  | some (Json.arr items) => items.filterMap itemTypeStr
  | some (Json.obj fields) => (itemTypeStr (Json.obj fields)).toList
  | some _ => []

/-- All truthy string `@type` occurrences of the page, with
multiplicity. -/
def allTypeStrings (blocks : List (Option Json)) : List (List Char) :=
  (blocks.map blockTypeStrs).join

/-- Whether an item's truthy `@type` (if any) is a string. -/
def itemSafe : Json → Bool
  | Json.obj fields =>
    match dictGet fields ("@type".toList) (Json.str []) with
    | Json.str _ => true
    | t => !t.truthy
  | _ => true

/-- Whether a parsed block only carries string (or falsy) `@type`
values. -/
def blockSafe : Option Json → Bool
  | none => true
  | some (Json.arr items) => items.all itemSafe
  | some (Json.obj fields) => itemSafe (Json.obj fields)
  | some _ => true

/-- Whether every truthy `@type` occurrence on the page is a string
(missing tags, missing attributes and malformed blocks all qualify). -/
def strTyped (blocks : List (Option Json)) : Bool := blocks.all blockSafe

/-- The points the priority table awards to one type string: those of the
first entry whose key occurs as a substring, in table-iteration order. -/
def typeTablePoints (t : List Char) : ℤ :=
  match importantTypes.find? (fun kp => listContains t kp.1) with
  | some kp => kp.2
  | none => 0

/-- Insertion into the (string-level) collected set. -/
def strInsert (acc : List (List Char)) (s : List Char) : List (List Char) :=
  if s ∈ acc then acc else acc ++ [s]

theorem scalarEq_str (a b : List Char) :
    Json.scalarEq (Json.str a) (Json.str b) = (a == b) := rfl

theorem any_scalarEq_str (s : List Char) (ss : List (List Char)) :
    (ss.map Json.str).any (fun x => Json.scalarEq x (Json.str s)) = decide (s ∈ ss) := by
  have hhead : ∀ a : List Char, (a == s) = decide (s = a) := by
    intro a
    by_cases h : a = s
    · subst h
      simp
    · have h' : ¬ s = a := fun hh => h hh.symm
      simp [h, h']
  induction ss with
  | nil => simp
  | cons a t ih =>
    simp only [List.map_cons, List.any_cons, ih, scalarEq_str, hhead]
    by_cases h1 : s = a <;> by_cases h2 : s ∈ t <;> simp [List.mem_cons, h1, h2]

theorem setAdd_str (ss : List (List Char)) (s : List Char) :
    setAdd (ss.map Json.str) (Json.str s) = (strInsert ss s).map Json.str := by
  unfold setAdd strInsert
  rw [any_scalarEq_str]
  by_cases h : s ∈ ss
  · simp [h]
  · simp [h]

theorem processItems_str (items : List Json) :
    ∀ (ss : List (List Char)), items.all itemSafe = true →
      processItems (ss.map Json.str) items
        = ((items.filterMap itemTypeStr).foldl strInsert ss).map Json.str := by
  induction items with
  | nil =>
    intro ss _
    rfl
  | cons item rest ih =>
    intro ss hsafe
    rw [List.all_cons, Bool.and_eq_true] at hsafe
    obtain ⟨hitem, hrest⟩ := hsafe
    cases item with
    | obj fields =>
      unfold processItems
      unfold itemSafe at hitem
      rw [List.filterMap_cons]
      unfold itemTypeStr
      dsimp only at hitem ⊢
      cases ht : dictGet fields ("@type".toList) (Json.str []) with
      | str s =>
        dsimp only
        by_cases htr : (Json.str s).truthy = true
        · rw [if_pos htr, if_pos (show (Json.str s).hashable = true from rfl), if_pos htr]
          rw [setAdd_str, ih (strInsert ss s) hrest]
          rfl
        · rw [if_neg htr, if_neg htr]
          exact ih ss hrest
      | null =>
        rw [if_neg (by decide : ¬ ((Json.null).truthy = true))]
        exact ih ss hrest
      | bool b =>
        rw [ht] at hitem
        cases b with
        | false =>
          rw [if_neg (by decide : ¬ ((Json.bool false).truthy = true))]
          exact ih ss hrest
        | true => simp [Json.truthy] at hitem
      | num n =>
        rw [ht] at hitem
        by_cases hn : n = 0
        · subst hn
          rw [if_neg (by decide : ¬ ((Json.num 0).truthy = true))]
          exact ih ss hrest
        · simp [Json.truthy, hn] at hitem
      | arr xs =>
        rw [ht] at hitem
        cases xs with
        | nil =>
          rw [if_neg (by decide : ¬ ((Json.arr []).truthy = true))]
          exact ih ss hrest
        | cons y ys => simp [Json.truthy] at hitem
      | obj fs =>
        rw [ht] at hitem
        cases fs with
        | nil =>
          rw [if_neg (by decide : ¬ ((Json.obj []).truthy = true))]
          exact ih ss hrest
        | cons kv fs2 => simp [Json.truthy] at hitem
    | null =>
      unfold processItems
      rw [List.filterMap_cons]
      exact ih _ hrest
    | bool b =>
      unfold processItems
      rw [List.filterMap_cons]
      exact ih _ hrest
    | num n =>
      unfold processItems
      rw [List.filterMap_cons]
      exact ih _ hrest
    | str s =>
      unfold processItems
      rw [List.filterMap_cons]
      exact ih _ hrest
    | arr xs =>
      unfold processItems
      rw [List.filterMap_cons]
      exact ih _ hrest

theorem processBlock_str (block : Option Json) (ss : List (List Char))
    (hsafe : blockSafe block = true) :
    processBlock (ss.map Json.str) block
      = ((blockTypeStrs block).foldl strInsert ss).map Json.str := by
  cases block with
  | none => rfl
  | some j =>
    cases j with
    | arr items =>
      unfold blockSafe at hsafe
      exact processItems_str items ss hsafe
    | obj fields =>
      unfold processBlock blockTypeStrs itemTypeStr
      unfold blockSafe itemSafe at hsafe
      dsimp only at hsafe ⊢
      cases ht : dictGet fields ("@type".toList) (Json.str []) with
      | str s =>
        dsimp only
        by_cases htr : (Json.str s).truthy = true
        · rw [if_pos htr, if_pos (show (Json.str s).hashable = true from rfl), if_pos htr]
          rw [setAdd_str]
          rfl
        · rw [if_neg htr, if_neg htr]
          rfl
      | null =>
        rw [if_neg (by decide : ¬ ((Json.null).truthy = true))]
        rfl
      | bool b =>
        rw [ht] at hsafe
        cases b with
        | false =>
          rw [if_neg (by decide : ¬ ((Json.bool false).truthy = true))]
          rfl
        | true => simp [Json.truthy] at hsafe
      | num n =>
        rw [ht] at hsafe
        by_cases hn : n = 0
        · subst hn
          rw [if_neg (by decide : ¬ ((Json.num 0).truthy = true))]
          rfl
        · simp [Json.truthy, hn] at hsafe
      | arr xs =>
        rw [ht] at hsafe
        cases xs with
        | nil =>
          rw [if_neg (by decide : ¬ ((Json.arr []).truthy = true))]
          rfl
        | cons y ys => simp [Json.truthy] at hsafe
      | obj fs =>
        rw [ht] at hsafe
        cases fs with
        | nil =>
          rw [if_neg (by decide : ¬ ((Json.obj []).truthy = true))]
          rfl
        | cons kv fs2 => simp [Json.truthy] at hsafe
    | null => rfl
    | bool b => rfl
    | num n => rfl
    | str s => rfl

theorem collectTypes_str_aux (blocks : List (Option Json)) :
    ∀ (ss : List (List Char)), strTyped blocks = true →
      blocks.foldl processBlock (ss.map Json.str)
        = ((allTypeStrings blocks).foldl strInsert ss).map Json.str := by
  induction blocks with
  | nil =>
    intro ss _
    rfl
  | cons block rest ih =>
    intro ss h
    unfold strTyped at h
    rw [List.all_cons, Bool.and_eq_true] at h
    obtain ⟨hb, hr⟩ := h
    show List.foldl processBlock (processBlock (ss.map Json.str) block) rest = _
    rw [processBlock_str block ss hb]
    rw [ih _ hr]
    unfold allTypeStrings
    rw [List.map_cons,
      show (blockTypeStrs block :: List.map blockTypeStrs rest).join
        = blockTypeStrs block ++ (List.map blockTypeStrs rest).join from rfl,
      List.foldl_append]

theorem collectTypes_str (blocks : List (Option Json)) (h : strTyped blocks = true) :
    collectTypes blocks = ((allTypeStrings blocks).foldl strInsert []).map Json.str := by
  unfold collectTypes
  exact collectTypes_str_aux blocks [] h

theorem strInsert_mem (ss : List (List Char)) (s x : List Char) :
    x ∈ strInsert ss s ↔ x ∈ ss ∨ x = s := by
  unfold strInsert
  by_cases h : s ∈ ss
  · rw [if_pos h]
    constructor
    · exact fun hx => Or.inl hx
    · rintro (hx | rfl)
      · exact hx
      · exact h
  · rw [if_neg h]
    simp [List.mem_append]

theorem strInsert_nodup (ss : List (List Char)) (s : List Char) (h : ss.Nodup) :
    (strInsert ss s).Nodup := by
  unfold strInsert
  by_cases hm : s ∈ ss
  · rw [if_pos hm]
    exact h
  · rw [if_neg hm]
    rw [List.nodup_append]
    exact ⟨h, List.nodup_singleton s, by simpa using hm⟩

theorem strCollect_nodup (ts : List (List Char)) :
    ∀ ss : List (List Char), ss.Nodup → (ts.foldl strInsert ss).Nodup := by
  induction ts with
  | nil => intro ss h; exact h
  | cons t rest ih =>
    intro ss h
    exact ih (strInsert ss t) (strInsert_nodup ss t h)

theorem strCollect_mem (ts : List (List Char)) :
    ∀ (ss : List (List Char)) (x : List Char),
      x ∈ ts.foldl strInsert ss ↔ x ∈ ss ∨ x ∈ ts := by
  induction ts with
  | nil => intro ss x; simp
  | cons t rest ih =>
    intro ss x
    show x ∈ rest.foldl strInsert (strInsert ss t) ↔ _
    rw [ih (strInsert ss t) x, strInsert_mem]
    simp [List.mem_cons]
    tauto

theorem strCollect_toFinset (ts : List (List Char)) :
    (ts.foldl strInsert []).toFinset = ts.toFinset := by
  apply Finset.ext
  intro x
  rw [List.mem_toFinset, List.mem_toFinset, strCollect_mem]
  simp

theorem scoreTypesGo_str (ss : List (List Char)) :
    ∀ (sc : ℤ) (ds : List (List Char)),
      ∃ ds', scoreTypesGo sc ds (ss.map Json.str)
        = Except.ok (sc + (ss.map typeTablePoints).sum, ds') := by
  induction ss with
  | nil =>
    intro sc ds
    exact ⟨ds, by simp [scoreTypesGo]⟩
  | cons s rest ih =>
    intro sc ds
    rw [List.map_cons]
    unfold scoreTypesGo
    dsimp only
    cases hf : importantTypes.find? (fun kp => listContains s kp.1) with
    | some kp =>
      obtain ⟨ds', hds'⟩ := ih (sc + kp.2) (ds ++ ["Schema: ".toList ++ s ++ "検出".toList])
      refine ⟨ds', ?_⟩
      dsimp only
      rw [hds']
      congr 1
      rw [List.map_cons, List.sum_cons]
      unfold typeTablePoints
      rw [hf]
      ring
    | none =>
      obtain ⟨ds', hds'⟩ := ih sc ds
      refine ⟨ds', ?_⟩
      dsimp only
      rw [hds']
      congr 1
      rw [List.map_cons, List.sum_cons]
      unfold typeTablePoints
      rw [hf]
      ring

theorem structured_ok (soup : Page) (h : strTyped soup.ldJsonBlocks = true) :
    ∃ res, _check_structured_data soup = Except.ok res
      ∧ res.score = clampScore
          ((allTypeStrings soup.ldJsonBlocks).toFinset.sum typeTablePoints
            + (if 0 < soup.microdataCount then 10 else 0)) := by
  unfold _check_structured_data
  rw [collectTypes_str soup.ldJsonBlocks h]
  dsimp only
  obtain ⟨ds', hds'⟩ := scoreTypesGo_str ((allTypeStrings soup.ldJsonBlocks).foldl strInsert []) 0 []
  rw [hds']
  dsimp only
  have hnodup : ((allTypeStrings soup.ldJsonBlocks).foldl strInsert []).Nodup :=
    strCollect_nodup _ [] List.nodup_nil
  have hsum : (((allTypeStrings soup.ldJsonBlocks).foldl strInsert []).map typeTablePoints).sum
      = (allTypeStrings soup.ldJsonBlocks).toFinset.sum typeTablePoints := by
    rw [← List.sum_toFinset typeTablePoints hnodup, strCollect_toFinset]
  by_cases hmc : soup.microdataCount > 0
  · rw [if_pos hmc, if_pos hmc]
    refine ⟨_, rfl, ?_⟩
    dsimp only
    rw [zero_add, hsum]
  · rw [if_neg hmc, if_neg hmc]
    refine ⟨_, rfl, ?_⟩
    dsimp only
    rw [zero_add, add_zero, hsum]

/-! ## Score-range helpers: every detector clamps its score -/

theorem clampScore_bounds (s : ℤ) : 0 ≤ clampScore s ∧ clampScore s ≤ 100 := by
  unfold clampScore
  constructor
  · exact le_max_left 0 _
  · exact max_le (by norm_num) (min_le_left 100 s)

set_option maxHeartbeats 2000000 in
theorem crawl_score_bounds (soup : Page) (url : List Char) :
    0 ≤ (_check_crawl_index_health soup url).score
  ∧ (_check_crawl_index_health soup url).score ≤ 100 := by
  unfold _check_crawl_index_health
  dsimp only
  repeat' split
  all_goals exact clampScore_bounds _

theorem answerability_score_bounds (soup : Page) (full_text : List Char) :
    0 ≤ (_check_answerability soup full_text).score
  ∧ (_check_answerability soup full_text).score ≤ 100 := by
  unfold _check_answerability
  dsimp only
  exact clampScore_bounds _

theorem eeat_score_bounds (soup : Page) (full_text : List Char) :
    0 ≤ (_check_eeat_proxy soup full_text).score
  ∧ (_check_eeat_proxy soup full_text).score ≤ 100 := by
  unfold _check_eeat_proxy
  dsimp only
  exact clampScore_bounds _

set_option maxHeartbeats 2000000 in
theorem consistency_score_bounds (soup : Page) (full_text : List Char) :
    0 ≤ (_check_content_consistency soup full_text).score
  ∧ (_check_content_consistency soup full_text).score ≤ 100 := by
  unfold _check_content_consistency
  dsimp only
  repeat' split
  all_goals exact clampScore_bounds _

theorem structured_score_bounds (soup : Page) (r : CheckResult)
    (h : _check_structured_data soup = Except.ok r) :
    0 ≤ r.score ∧ r.score ≤ 100 := by
  unfold _check_structured_data at h
  dsimp only at h
  cases hgo : scoreTypesGo 0 [] (collectTypes soup.ldJsonBlocks) with
  | error e =>
    rw [hgo] at h
    dsimp only at h
    exact Except.noConfusion h
  | ok p =>
    obtain ⟨sc, ds⟩ := p
    rw [hgo] at h
    dsimp only at h
    split at h
    all_goals
      have hr := Except.ok.inj h
      subst hr
      exact clampScore_bounds _

/-! ## The judgment dictionary only returns in-range values -/

theorem llmGet_bounds (l : List (List Char × ℤ)) (key : List Char) (dflt : ℤ)
    (hd : 0 ≤ dflt ∧ dflt ≤ 100) (hl : ∀ kv ∈ l, 0 ≤ kv.2 ∧ kv.2 ≤ 100) :
    0 ≤ llmGet l key dflt ∧ llmGet l key dflt ≤ 100 := by
  unfold llmGet
  cases hf : l.reverse.find? (fun kv => decide (kv.1 = key)) with
  | none => simpa using hd
  | some kv =>
    have hmem : kv ∈ l.reverse := List.mem_of_find?_eq_some hf
    rw [List.mem_reverse] at hmem
    simpa using hl kv hmem

/-! ## Blending a score with itself is the identity on 0..100 -/

theorem blendFloat_self_nat : ∀ n : ℕ, n < 101 → blendFloat n n = n := by decide

theorem blendFloat_self (R : ℤ) (h0 : 0 ≤ R) (h1 : R ≤ 100) : blendFloat R R = R := by
  have h := blendFloat_self_nat R.toNat (by omega)
  rwa [Int.toNat_of_nonneg h0] at h

/-! ## The claims -/

/-- C1: for every page, every text and every optional judgment whose
values lie in `[0, 100]`, each of the five category scores and the
composite score that `calculate_scores` returns is an integer in
`[0, 100]`. -/
theorem C1_scores_within_range (url : List Char) (soup : Page) (full_text : List Char)
    (llm_scores : Option (List (List Char × ℤ)))
    (hj : ∀ l, llm_scores = some l → ∀ kv ∈ l, 0 ≤ kv.2 ∧ kv.2 ≤ 100)
    (res : ScoreSet) (h : calculate_scores url soup full_text llm_scores = Except.ok res) :
    (0 ≤ res.crawlIndex ∧ res.crawlIndex ≤ 100)
  ∧ (0 ≤ res.answerability ∧ res.answerability ≤ 100)
  ∧ (0 ≤ res.eeat ∧ res.eeat ≤ 100)
  ∧ (0 ≤ res.structuredData ∧ res.structuredData ≤ 100)
  ∧ (0 ≤ res.consistency ∧ res.consistency ≤ 100)
  ∧ (0 ≤ res.total ∧ res.total ≤ 100) := by
  have hci := crawl_score_bounds soup url
  have han := answerability_score_bounds soup full_text
  have hee := eeat_score_bounds soup full_text
  have hco := consistency_score_bounds soup full_text
  unfold calculate_scores at h
  dsimp only at h
  cases hsd : _check_structured_data soup with
  | error e =>
    rw [hsd] at h
    dsimp only at h
    exact Except.noConfusion h
  | ok st =>
    have hst := structured_score_bounds soup st hsd
    rw [hsd] at h
    dsimp only at h
    cases llm_scores with
    | none =>
      dsimp only at h
      have hr := Except.ok.inj h
      subst hr
      exact ⟨hci, han, hee, hst, hco,
        compositeFloat_bounds _ _ _ _ _ hci.1 hci.2 han.1 han.2 hee.1 hee.2
          hst.1 hst.2 hco.1 hco.2⟩
    | some l =>
      dsimp only at h
      have hjl := hj l rfl
      by_cases hl : l.isEmpty = true
      · rw [if_neg (by rw [hl]; decide)] at h
        have hr := Except.ok.inj h
        subst hr
        exact ⟨hci, han, hee, hst, hco,
          compositeFloat_bounds _ _ _ _ _ hci.1 hci.2 han.1 han.2 hee.1 hee.2
            hst.1 hst.2 hco.1 hco.2⟩
      · rw [Bool.not_eq_true] at hl
        rw [if_pos (by rw [hl]; decide)] at h
        have hr := Except.ok.inj h
        subst hr
        have hb1 := blendFloat_bounds _ _ hci.1 hci.2
          (llmGet_bounds l ("Crawl/Index健全性".toList) _ hci hjl).1
          (llmGet_bounds l ("Crawl/Index健全性".toList) _ hci hjl).2
        have hb2 := blendFloat_bounds _ _ han.1 han.2
          (llmGet_bounds l ("回答性".toList) _ han hjl).1
          (llmGet_bounds l ("回答性".toList) _ han hjl).2
        have hb3 := blendFloat_bounds _ _ hee.1 hee.2
          (llmGet_bounds l ("E-E-A-T".toList) _ hee hjl).1
          (llmGet_bounds l ("E-E-A-T".toList) _ hee hjl).2
        have hb4 := blendFloat_bounds _ _ hst.1 hst.2
          (llmGet_bounds l ("構造化データ".toList) _ hst hjl).1
          (llmGet_bounds l ("構造化データ".toList) _ hst hjl).2
        have hb5 := blendFloat_bounds _ _ hco.1 hco.2
          (llmGet_bounds l ("コンテンツ一貫性".toList) _ hco hjl).1
          (llmGet_bounds l ("コンテンツ一貫性".toList) _ hco hjl).2
        exact ⟨hb1, hb2, hb3, hb4, hb5,
          compositeFloat_bounds _ _ _ _ _ hb1.1 hb1.2 hb2.1 hb2.2 hb3.1 hb3.2
            hb4.1 hb4.2 hb5.1 hb5.2⟩

/-- C1 witness: the bounds at the empty page with no judgment, where the
returned scores are all zero. -/
theorem C1_scores_within_range_witness :
    (0 ≤ (ScoreSet.mk 0 0 0 0 0 0).crawlIndex ∧ (ScoreSet.mk 0 0 0 0 0 0).crawlIndex ≤ 100)
  ∧ (0 ≤ (ScoreSet.mk 0 0 0 0 0 0).answerability ∧ (ScoreSet.mk 0 0 0 0 0 0).answerability ≤ 100)
  ∧ (0 ≤ (ScoreSet.mk 0 0 0 0 0 0).eeat ∧ (ScoreSet.mk 0 0 0 0 0 0).eeat ≤ 100)
  ∧ (0 ≤ (ScoreSet.mk 0 0 0 0 0 0).structuredData ∧ (ScoreSet.mk 0 0 0 0 0 0).structuredData ≤ 100)
  ∧ (0 ≤ (ScoreSet.mk 0 0 0 0 0 0).consistency ∧ (ScoreSet.mk 0 0 0 0 0 0).consistency ≤ 100)
  ∧ (0 ≤ (ScoreSet.mk 0 0 0 0 0 0).total ∧ (ScoreSet.mk 0 0 0 0 0 0).total ≤ 100) :=
  C1_scores_within_range [] emptyPage [] none (fun _ hl => nomatch hl)
    (ScoreSet.mk 0 0 0 0 0 0) (by decide)

/-- C2 counterexample: rule score 45 with judged score 0.  The code blends
to 31 — in binary64, `45 * 0.7` is slightly below `31.5` — while the
spec's `round(0.7*45 + 0.3*0)` is 32 (half-to-even), and the full pipeline
indeed returns 31 for the category. -/
theorem C2_blend_counterexample :
    blendFloat 45 0 = 31
  ∧ exactRound ((0.7 * 45 + 0.3 * 0 : ℚ)) = 32
  ∧ (31 : ℤ) ≠ 32
  ∧ calculate_scores [] pageCrawl45 [] (some [("Crawl/Index健全性".toList, 0)])
      = Except.ok ⟨31, 0, 0, 0, 0, 6⟩
  ∧ (_check_crawl_index_health pageCrawl45 []).score = 45 := by
  refine ⟨by decide, ?_, by decide, by decide, by decide⟩
  norm_num [exactRound]

/-- C2 (amended): with no judgment, or an empty one, every category score
is the rule score unchanged; with a non-empty judgment each category is
blended by the code's binary64 expression (`blendFloat`), a category
missing from the judgment defaults the judged value to the rule score,
`blendFloat R R = R` on `[0, 100]`, and away from exact-half ties
(`(7R + 3J) % 10 ≠ 5`) the float blend agrees with the spec's
`round(0.7R + 0.3J)`. -/
theorem C2_blend_amended :
    (∀ R : ℤ, 0 ≤ R → R ≤ 100 → blendFloat R R = R)
  ∧ (∀ R J : ℤ, 0 ≤ R → R ≤ 100 → 0 ≤ J → J ≤ 100 → (7 * R + 3 * J) % 10 ≠ 5 →
      blendFloat R J = exactRound (0.7 * (R : ℚ) + 0.3 * (J : ℚ)))
  ∧ (∀ url soup full_text res, calculate_scores url soup full_text none = Except.ok res →
        res.crawlIndex = (_check_crawl_index_health soup url).score
      ∧ res.answerability = (_check_answerability soup full_text).score
      ∧ res.eeat = (_check_eeat_proxy soup full_text).score
      ∧ res.consistency = (_check_content_consistency soup full_text).score
      ∧ (∀ st, _check_structured_data soup = Except.ok st → res.structuredData = st.score))
  ∧ (∀ url soup full_text res, calculate_scores url soup full_text (some []) = Except.ok res →
        res.crawlIndex = (_check_crawl_index_health soup url).score
      ∧ res.answerability = (_check_answerability soup full_text).score
      ∧ res.eeat = (_check_eeat_proxy soup full_text).score
      ∧ res.consistency = (_check_content_consistency soup full_text).score
      ∧ (∀ st, _check_structured_data soup = Except.ok st → res.structuredData = st.score))
  ∧ (∀ url soup full_text l res, l ≠ [] →
      calculate_scores url soup full_text (some l) = Except.ok res →
        res.crawlIndex = blendFloat (_check_crawl_index_health soup url).score
          (llmGet l ("Crawl/Index健全性".toList) (_check_crawl_index_health soup url).score)
      ∧ res.answerability = blendFloat (_check_answerability soup full_text).score
          (llmGet l ("回答性".toList) (_check_answerability soup full_text).score)
      ∧ res.eeat = blendFloat (_check_eeat_proxy soup full_text).score
          (llmGet l ("E-E-A-T".toList) (_check_eeat_proxy soup full_text).score)
      ∧ res.consistency = blendFloat (_check_content_consistency soup full_text).score
          (llmGet l ("コンテンツ一貫性".toList) (_check_content_consistency soup full_text).score)
      ∧ (∀ st, _check_structured_data soup = Except.ok st →
          res.structuredData = blendFloat st.score (llmGet l ("構造化データ".toList) st.score))) := by
  refine ⟨fun R h0 h1 => blendFloat_self R h0 h1, ?_, ?_, ?_, ?_⟩
  · intro R J hR0 hR1 hJ0 hJ1 hmod
    rw [blendFloat_eq_exactRound R J hR0 hR1 hJ0 hJ1 hmod]
    congr 1
    rw [show (0.7 : ℚ) = 7 / 10 from by norm_num, show (0.3 : ℚ) = 3 / 10 from by norm_num]
    push_cast
    ring
  · intro url soup full_text res h
    unfold calculate_scores at h
    dsimp only at h
    cases hsd : _check_structured_data soup with
    | error e =>
      rw [hsd] at h
      dsimp only at h
      exact Except.noConfusion h
    | ok st =>
      rw [hsd] at h
      dsimp only at h
      have hr := Except.ok.inj h
      subst hr
      refine ⟨rfl, rfl, rfl, rfl, ?_⟩
      intro st' hst'
      have h2 := Except.ok.inj hst'
      subst h2
      rfl
  · intro url soup full_text res h
    unfold calculate_scores at h
    dsimp only at h
    cases hsd : _check_structured_data soup with
    | error e =>
      rw [hsd] at h
      dsimp only at h
      exact Except.noConfusion h
    | ok st =>
      rw [hsd] at h
      dsimp only at h
      rw [if_neg (by decide)] at h
      have hr := Except.ok.inj h
      subst hr
      refine ⟨rfl, rfl, rfl, rfl, ?_⟩
      intro st' hst'
      have h2 := Except.ok.inj hst'
      subst h2
      rfl
  · intro url soup full_text l res hne h
    have hl : l.isEmpty = false := by
      cases l with
      | nil => exact absurd rfl hne
      | cons a t => rfl
    unfold calculate_scores at h
    dsimp only at h
    cases hsd : _check_structured_data soup with
    | error e =>
      rw [hsd] at h
      dsimp only at h
      exact Except.noConfusion h
    | ok st =>
      rw [hsd] at h
      dsimp only at h
      rw [if_pos (by rw [hl]; decide)] at h
      have hr := Except.ok.inj h
      subst hr
      refine ⟨rfl, rfl, rfl, rfl, ?_⟩
      intro st' hst'
      have h2 := Except.ok.inj hst'
      subst h2
      rfl

/-- C2 witness: blending 45 with itself returns 45; blending rule 45 with
judged 11 lands off the tie and equals the exact rounding. -/
theorem C2_blend_amended_witness :
    blendFloat 45 45 = 45
  ∧ blendFloat 45 11 = exactRound (0.7 * ((45 : ℤ) : ℚ) + 0.3 * ((11 : ℤ) : ℚ)) :=
  ⟨C2_blend_amended.1 45 (by decide) (by decide),
   C2_blend_amended.2.1 45 11 (by decide) (by decide) (by decide) (by decide) (by decide)⟩

/-- C3 counterexample: at blended scores (3, 49, 55, 77, 11) the weighted
sum is exactly 39.5; the code's float composite is 39 while the spec's
`round` of the exact sum is 40 (half-to-even). -/
theorem C3_composite_counterexample :
    compositeFloat 3 49 55 77 11 = 39
  ∧ exactRound ((0.20 * 3 + 0.30 * 49 + 0.20 * 55 + 0.15 * 77 + 0.15 * 11 : ℚ)) = 40
  ∧ (39 : ℤ) ≠ 40 := by
  refine ⟨by decide, ?_, by decide⟩
  norm_num [exactRound]

/-- C3 (amended): the five weights sum to exactly 1; the composite the
pipeline returns is the code's binary64 expression (`compositeFloat`) of
the five blended scores; and away from exact-half ties
(`(20a + 30b + 20c + 15d + 15e) % 100 ≠ 50`) that float expression agrees
with the spec's `round(0.20a + 0.30b + 0.20c + 0.15d + 0.15e)`. -/
theorem C3_composite_amended :
    ((0.20 + 0.30 + 0.20 + 0.15 + 0.15 : ℚ) = 1)
  ∧ (∀ url soup full_text llm_scores res,
      calculate_scores url soup full_text llm_scores = Except.ok res →
        res.total = compositeFloat res.crawlIndex res.answerability res.eeat
          res.structuredData res.consistency)
  ∧ (∀ a b c d e : ℤ, 0 ≤ a → a ≤ 100 → 0 ≤ b → b ≤ 100 → 0 ≤ c → c ≤ 100 →
      0 ≤ d → d ≤ 100 → 0 ≤ e → e ≤ 100 →
      (20 * a + 30 * b + 20 * c + 15 * d + 15 * e) % 100 ≠ 50 →
      compositeFloat a b c d e
        = exactRound (0.20 * (a : ℚ) + 0.30 * (b : ℚ) + 0.20 * (c : ℚ)
            + 0.15 * (d : ℚ) + 0.15 * (e : ℚ))) := by
  refine ⟨by norm_num, ?_, ?_⟩
  · intro url soup full_text llm_scores res h
    unfold calculate_scores at h
    dsimp only at h
    cases hsd : _check_structured_data soup with
    | error e =>
      rw [hsd] at h
      dsimp only at h
      exact Except.noConfusion h
    | ok st =>
      rw [hsd] at h
      dsimp only at h
      cases llm_scores with
      | none =>
        dsimp only at h
        have hr := Except.ok.inj h
        subst hr
        rfl
      | some l =>
        dsimp only at h
        by_cases hl : l.isEmpty = true
        · rw [if_neg (by rw [hl]; decide)] at h
          have hr := Except.ok.inj h
          subst hr
          rfl
        · rw [Bool.not_eq_true] at hl
          rw [if_pos (by rw [hl]; decide)] at h
          have hr := Except.ok.inj h
          subst hr
          rfl
  · intro a b c d e ha0 ha1 hb0 hb1 hc0 hc1 hd0 hd1 he0 he1 hmod
    rw [compositeFloat_eq_exactRound a b c d e ha0 ha1 hb0 hb1 hc0 hc1 hd0 hd1 he0 he1 hmod]
    congr 1
    rw [show (0.20 : ℚ) = 1 / 5 from by norm_num, show (0.30 : ℚ) = 3 / 10 from by norm_num,
      show (0.15 : ℚ) = 3 / 20 from by norm_num]
    push_cast
    ring

/-- C3 witness: the weight identity, the composite of the empty page's
all-zero scores, and the off-tie agreement at (70, 45, 0, 30, 91). -/
theorem C3_composite_amended_witness :
    ((0.20 + 0.30 + 0.20 + 0.15 + 0.15 : ℚ) = 1)
  ∧ (ScoreSet.mk 0 0 0 0 0 0).total = compositeFloat (ScoreSet.mk 0 0 0 0 0 0).crawlIndex
      (ScoreSet.mk 0 0 0 0 0 0).answerability (ScoreSet.mk 0 0 0 0 0 0).eeat
      (ScoreSet.mk 0 0 0 0 0 0).structuredData (ScoreSet.mk 0 0 0 0 0 0).consistency
  ∧ compositeFloat 70 45 0 30 91
      = exactRound (0.20 * ((70 : ℤ) : ℚ) + 0.30 * ((45 : ℤ) : ℚ) + 0.20 * ((0 : ℤ) : ℚ)
          + 0.15 * ((30 : ℤ) : ℚ) + 0.15 * ((91 : ℤ) : ℚ)) :=
  ⟨C3_composite_amended.1,
   C3_composite_amended.2.1 [] emptyPage [] none (ScoreSet.mk 0 0 0 0 0 0) (by decide),
   C3_composite_amended.2.2 70 45 0 30 91 (by decide) (by decide) (by decide) (by decide)
     (by decide) (by decide) (by decide) (by decide) (by decide) (by decide) (by decide)⟩

/-- C4 counterexample: on the page exactly as the specification's example
describes it (15-character title, 60-character description, one h1, three
h2 each with a following p, an `FAQPage` JSON-LD block, 6000 characters of
body text) the code returns Crawl/Index 50 — not 70, since the example
names no canonical link — an Answerability of 45, because the
text-length bonus at 6000 characters is +5 (the +10 band starts above
8000), and a composite of 42, which is not strictly greater than 50. -/
theorem C4_example_counterexample :
    calculate_scores [] pageC4min ft6000 none = Except.ok ⟨50, 45, 0, 30, 90, 42⟩
  ∧ (_check_crawl_index_health pageC4min []).score = 50
  ∧ (_check_answerability pageC4min ft6000).score = 45
  ∧ (50 : ℤ) ≠ 70
  ∧ (45 : ℤ) ≠ 50
  ∧ ¬ ((42 : ℤ) > 50) :=
  ⟨calc_C4min, by decide, answerability_eval pageC4min rfl rfl rfl rfl rfl rfl,
   by decide, by decide, by decide⟩

/-- C4 (amended): with the canonical link that the expected `25+25+20`
breakdown implies, the example page scores Crawl/Index 70, Structured
Data 30 (so at least 30), Answerability 45 — its baseline is
H1(+20) + H2(+20) + text-length(+5), the 6000-character text falling in
the 4000..8000 band — and a composite of 46, still not above 50. -/
theorem C4_example_amended :
    calculate_scores [] pageC4 ft6000 none = Except.ok ⟨70, 45, 0, 30, 90, 46⟩
  ∧ (_check_crawl_index_health pageC4 []).score = 70
  ∧ (∃ r, _check_structured_data pageC4 = Except.ok r ∧ 30 ≤ r.score)
  ∧ (_check_answerability pageC4 ft6000).score = 45
  ∧ ¬ ((46 : ℤ) > 50) :=
  ⟨calc_C4, by decide, ⟨⟨30, ["Schema: FAQPage検出".toList]⟩, by decide, by decide⟩,
   answerability_eval pageC4 rfl rfl rfl rfl rfl rfl, by decide⟩

/-- C5: on a page whose robots (or googlebot) meta content contains
`noindex`, the Crawl/Index Health score is at most the score the same
page gets with the noindex check skipped, and is never negative. -/
theorem C5_noindex_monotone (soup : Page) (url : List Char) (m : MetaTag)
    (hm : (soup.robotsMeta <|> soup.googlebotMeta) = some m)
    (hni : listContains (lowerL (m.content.getD [])) ("noindex".toList) = true) :
    (_check_crawl_index_health soup url).score
      ≤ (crawl_index_health_skip_noindex soup url).score
  ∧ 0 ≤ (_check_crawl_index_health soup url).score :=
  crawl_noindex_le soup url m hm hni

/-- C5 witness: the comparison at a page whose robots meta is exactly
`noindex`. -/
theorem C5_noindex_monotone_witness :
    (_check_crawl_index_health noindexPage []).score
      ≤ (crawl_index_health_skip_noindex noindexPage []).score
  ∧ 0 ≤ (_check_crawl_index_health noindexPage []).score :=
  C5_noindex_monotone noindexPage [] ⟨some ("noindex".toList)⟩ rfl (by decide)

/-- C6: the extractor's digest never exceeds 3000 characters, and on a
page with no h1, h2 or h3 element it is exactly the first 3000 characters
of the page's full collapsed text. -/
theorem C6_extract_digest (soup : Page) :
    (extract_important_sections soup).length ≤ 3000
  ∧ (soup.firstH1 = none → soup.h23Headings = [] →
      extract_important_sections soup = soup.bodyText.take 3000) :=
  ⟨extract_length_le soup, fun h1 h23 => extract_fallback soup h1 h23⟩

/-- C6 witness: both parts at the empty page. -/
theorem C6_extract_digest_witness :
    (extract_important_sections emptyPage).length ≤ 3000
  ∧ extract_important_sections emptyPage = emptyPage.bodyText.take 3000 :=
  ⟨(C6_extract_digest emptyPage).1, (C6_extract_digest emptyPage).2 rfl rfl⟩

/-- C7: whenever every truthy `@type` on the page is a string, the
Structured Data detector succeeds, and its score is the clamp of the sum,
over the distinct collected type strings, of the points of the first
priority-table entry whose key is a substring of the type (in
table-iteration order; `typeTablePoints`), plus a flat +10 exactly when
any element carries an `itemtype` attribute, independent of how many. -/
theorem C7_structured_points (soup : Page) (h : strTyped soup.ldJsonBlocks = true) :
    ∃ res, _check_structured_data soup = Except.ok res
      ∧ res.score = clampScore
          ((allTypeStrings soup.ldJsonBlocks).toFinset.sum typeTablePoints
            + (if 0 < soup.microdataCount then 10 else 0)) :=
  structured_ok soup h

/-- C7 witness: the scoring at a page with a duplicated `FAQPage` block,
an `Article` block and five microdata elements. -/
theorem C7_structured_points_witness :
    ∃ res, _check_structured_data pageC7 = Except.ok res
      ∧ res.score = clampScore
          ((allTypeStrings pageC7.ldJsonBlocks).toFinset.sum typeTablePoints
            + (if 0 < pageC7.microdataCount then 10 else 0)) :=
  C7_structured_points pageC7 (by decide)

/-- C8: whenever every truthy `@type` on the page is a string — which
covers every page with missing tags, missing attributes or malformed
markup, a malformed block being recorded as an unparsed one — no detector
raises: the Structured Data detector and the whole pipeline return
results; and on the page whose blocks are a malformed one followed by a
well-formed `FAQPage` one, the malformed block is skipped silently and
the well-formed block still scores at least 30. -/
theorem C8_no_exception (soup : Page) (h : strTyped soup.ldJsonBlocks = true) :
    (∃ r, _check_structured_data soup = Except.ok r)
  ∧ (∀ url full_text, ∃ res, calculate_scores url soup full_text none = Except.ok res)
  ∧ (soup.ldJsonBlocks
        = [none, some (Json.obj [("@type".toList, Json.str ("FAQPage".toList))])] →
      ∃ r, _check_structured_data soup = Except.ok r ∧ 30 ≤ r.score) := by
  obtain ⟨r, hr, hscore⟩ := structured_ok soup h
  refine ⟨⟨r, hr⟩, ?_, ?_⟩
  · intro url full_text
    unfold calculate_scores
    rw [hr]
    dsimp only
    exact ⟨_, rfl⟩
  · intro hb
    refine ⟨r, hr, ?_⟩
    rw [hb] at hscore
    have hsum : (allTypeStrings
        [none, some (Json.obj [("@type".toList, Json.str ("FAQPage".toList))])]).toFinset.sum
          typeTablePoints = 30 := by decide
    rw [hsum] at hscore
    rw [hscore]
    by_cases hmc : 0 < soup.microdataCount
    · rw [if_pos hmc]
      decide
    · rw [if_neg hmc]
      decide

/-- C8 witness: all three parts at the page with a malformed block and a
well-formed `FAQPage` block. -/
theorem C8_no_exception_witness :
    (∃ r, _check_structured_data pageC8 = Except.ok r)
  ∧ (∀ url full_text, ∃ res, calculate_scores url pageC8 full_text none = Except.ok res)
  ∧ (pageC8.ldJsonBlocks
        = [none, some (Json.obj [("@type".toList, Json.str ("FAQPage".toList))])] →
      ∃ r, _check_structured_data pageC8 = Except.ok r ∧ 30 ≤ r.score) :=
  C8_no_exception pageC8 (by decide)

/-- C10: when the page's only JSON-LD block is a dict whose `@type` value
is a JSON array, the type is never collected — a non-empty array raises a
`TypeError` inside the block's scope that the bare `except` swallows, an
empty one fails the truthiness test — the detector still succeeds, and
its score is exactly the microdata bonus: 10 when `itemtype` elements
exist, 0 otherwise. -/
theorem C10_array_type_skipped (soup : Page) (fields : List (List Char × Json))
    (ts : List Json)
    (hb : soup.ldJsonBlocks = [some (Json.obj fields)])
    (ht : dictGet fields ("@type".toList) (Json.str []) = Json.arr ts) :
    collectTypes soup.ldJsonBlocks = []
  ∧ ∃ r, _check_structured_data soup = Except.ok r
      ∧ r.score = (if 0 < soup.microdataCount then 10 else 0) := by
  have hcol : collectTypes soup.ldJsonBlocks = [] := by
    rw [hb]
    show processBlock [] (some (Json.obj fields)) = []
    unfold processBlock
    dsimp only
    rw [ht]
    cases ts with
    | nil => rfl
    | cons t ts' => rfl
  refine ⟨hcol, ?_⟩
  unfold _check_structured_data
  dsimp only
  rw [hcol,
    show scoreTypesGo 0 [] ([] : List Json) = Except.ok ((0 : ℤ), ([] : List (List Char)))
      from rfl]
  dsimp only
  by_cases hmc : 0 < soup.microdataCount
  · rw [if_pos hmc, if_pos hmc]
    refine ⟨_, rfl, ?_⟩
    show clampScore (0 + 10) = 10
    decide
  · rw [if_neg hmc, if_neg hmc]
    refine ⟨_, rfl, ?_⟩
    show clampScore 0 = 0
    decide

/-- C10 witness: the block `{"@type": ["FAQPage"]}` with two microdata
elements contributes only the +10 bonus. -/
theorem C10_array_type_skipped_witness :
    collectTypes pageC10.ldJsonBlocks = []
  ∧ ∃ r, _check_structured_data pageC10 = Except.ok r
      ∧ r.score = (if 0 < pageC10.microdataCount then 10 else 0) :=
  C10_array_type_skipped pageC10 [("@type".toList, Json.arr [Json.str ("FAQPage".toList)])]
    [Json.str ("FAQPage".toList)] rfl rfl

/-- C9 counterexample: a description meta whose content is 50 spaces is
treated as absent — its stripped content is empty, so it earns no +25 and
the `descriptionなし` note — yet it escapes the −10 shortness penalty,
because that penalty tests the raw, unstripped length, which is 50. -/
theorem C9_desc_counterexample :
    ("descriptionなし".toList ∈ (_check_crawl_index_health pageC9 []).details)
  ∧ ¬ ("descriptionが短すぎる可能性".toList ∈ (_check_crawl_index_health pageC9 []).details)
  ∧ (_check_crawl_index_health pageC9 []).score = 0 := by decide

set_option maxHeartbeats 2000000

/-- C9 (amended): an empty `<title>` is simultaneously noted absent (no
+25) and penalised as short (−10), since the shortness check fires
whenever the tag exists; a description whose stripped content is empty is
likewise noted absent, but its shortness penalty is keyed to the raw
content length — it fires exactly when the unstripped length is below 50,
so whitespace padding of length 50 or more escapes it. -/
theorem C9_title_desc_shortness (soup : Page) (url : List Char) (m : MetaTag)
    (ht : soup.titleText = some []) (hm : soup.metaDescription = some m)
    (hws : (pyStrip (m.content.getD [])).isEmpty = true) :
    ("titleなし".toList ∈ (_check_crawl_index_health soup url).details)
  ∧ ("titleが短すぎる可能性".toList ∈ (_check_crawl_index_health soup url).details)
  ∧ ("descriptionなし".toList ∈ (_check_crawl_index_health soup url).details)
  ∧ (("descriptionが短すぎる可能性".toList ∈ (_check_crawl_index_health soup url).details)
      ↔ (m.content.getD []).length < 50) := by
  unfold _check_crawl_index_health
  rw [ht, hm]
  cases hni : soup.robotsMeta <|> soup.googlebotMeta <;>
    cases hcn : soup.canonical <;> (try dsimp only) <;> (try rw [hws]) <;>
    split_ifs <;> simp_all +decide [List.mem_append]

/-- C9 witness: the double title outcome and the escaped description
penalty at the page with an empty title and a 50-space description. -/
theorem C9_title_desc_shortness_witness :
    ("titleなし".toList ∈ (_check_crawl_index_health pageC9b []).details)
  ∧ ("titleが短すぎる可能性".toList ∈ (_check_crawl_index_health pageC9b []).details)
  ∧ ("descriptionなし".toList ∈ (_check_crawl_index_health pageC9b []).details)
  ∧ (("descriptionが短すぎる可能性".toList ∈ (_check_crawl_index_health pageC9b []).details)
      ↔ ((MetaTag.mk (some (List.replicate 50 ' '))).content.getD []).length < 50) :=
  C9_title_desc_shortness pageC9b [] (MetaTag.mk (some (List.replicate 50 ' ')))
    rfl rfl (by decide)
